import Mathlib

/-!
Verification of the District4 church-district administrative tool
(`src/app.py`): a shallow embedding in Lean 4 of the sync, reconciliation,
export, AO-approval and verse-of-the-day logic, together with theorems
about the spec-level properties of that code.

Conventions of the embedding:
* Python strings are Lean `String`s; `str.strip()` is `pyStrip`,
  `str.lower()` is `pyLower`, SQL `TRIM` (spaces only) is `sqlTrim`.
* SQLite REAL values are modelled as rationals (exact arithmetic stands in
  for IEEE floats; no claim here depends on rounding).
* SQLite tables are lists of records; `INSERT OR REPLACE` on a keyed table
  deletes the conflicting row and appends the new one, mirroring SQLite.
* The Google-Sheets grid is a `List (List String)` including the header
  row; physical sheet rows are 1-based, so the grid index of physical row
  `r` is `r - 1`.
* Fallible I/O (opening the spreadsheet, reading a tab, the verse HTTP
  call) is modelled by `Option` parameters: `none` is the exception path.
-/

namespace District4

/-! ## String utilities (Python `strip`, `lower`, SQL `TRIM`, `split`) -/

/-- Python `str.strip()`: drop whitespace from both ends. -/
def pyStrip (s : String) : String :=
  ⟨(s.data.dropWhile Char.isWhitespace).reverse.dropWhile Char.isWhitespace |>.reverse⟩

/-- SQL `TRIM(x)`: drop space characters (only `' '`) from both ends. -/
def sqlTrim (s : String) : String :=
  ⟨(s.data.dropWhile (· = ' ')).reverse.dropWhile (· = ' ') |>.reverse⟩

/-- Python `str.lower()` (ASCII case mapping suffices for this data). -/
def pyLower (s : String) : String :=
  ⟨s.data.map Char.toLower⟩

/-- Python `"needle" in haystack` substring test. -/
def containsSub (haystack needle : String) : Bool :=
  haystack.data.tails.any (fun t => needle.data.isPrefixOf t)

/-- Byte-order comparison of strings (SQLite's default TEXT collation;
codepoint order and UTF-8 byte order agree on this system's ASCII data). -/
def lexLe : List Char → List Char → Bool
  | [], _ => true
  | _ :: _, [] => false
  | a :: as, b :: bs =>
    if a.toNat < b.toNat then true
    else if b.toNat < a.toNat then false
    else lexLe as bs

/-- Python `s.split(sep)` for a single-character separator. -/
def splitChar (sep : Char) : List Char → List (List Char)
  | [] => [[]]
  | c :: cs =>
    if c = sep then [] :: splitChar sep cs
    else
      match splitChar sep cs with
      | g :: gs => (c :: g) :: gs
      | [] => [[c]]

/-! ## Decimal digits: printing and reading -/

/-- The decimal digit character for `n % 10`. -/
def digitChar (n : Nat) : Char :=
  match n % 10 with
  | 0 => '0' | 1 => '1' | 2 => '2' | 3 => '3' | 4 => '4'
  | 5 => '5' | 6 => '6' | 7 => '7' | 8 => '8' | _ => '9'

/-- Decimal digit list of a natural number, most significant first
(the digits of Python `str(n)` for an `int`). -/
def natDigits (n : Nat) : List Char :=
  if _h : n < 10 then [digitChar n]
  else natDigits (n / 10) ++ [digitChar (n % 10)]
  decreasing_by exact Nat.div_lt_self (by omega) (by omega)

/-- Unpadded decimal string of a natural number (Python `str(n)`). -/
def natLit (n : Nat) : String :=
  ⟨natDigits n⟩

/-- Value of a digit list (0 when empty). -/
def digitsVal (cs : List Char) : Nat :=
  cs.foldl (fun a c => a * 10 + (c.toNat - 48)) 0

/-- Read a nonempty all-digit character list as a natural number;
`none` otherwise (Python `int` raises on such input). -/
def readDigits (cs : List Char) : Option Nat :=
  if cs ≠ [] ∧ cs.all Char.isDigit then some (digitsVal cs)
  else none

/-- Python `int(s)`: strip, optional sign, decimal digits.
(Digit-grouping underscores accepted by CPython are not modelled; no
data in this system uses them.) -/
def parseInt (s : String) : Option Int :=
  match (pyStrip s).data with
  | '-' :: cs => (readDigits cs).map (fun n => -(n : Int))
  | '+' :: cs => (readDigits cs).map (fun n => (n : Int))
  | cs => (readDigits cs).map (fun n => (n : Int))

/-! ## The Gregorian calendar (Python `datetime.date`) -/

/-- A calendar date, as Python `datetime.date` (always a valid date when
built through `mkDate` / `generateSundaysForMonth`). -/
structure Date where
  year : Nat
  month : Nat
  day : Nat
deriving DecidableEq, Repr

def isLeapYear (y : Nat) : Bool :=
  (y % 4 = 0 && y % 100 ≠ 0) || y % 400 = 0

def daysInMonth (y m : Nat) : Nat :=
  if m = 2 then (if isLeapYear y then 29 else 28)
  else if m = 4 ∨ m = 6 ∨ m = 9 ∨ m = 11 then 30
  else 31

/-- Validity of a (year, month, day) triple for Python `date(y, m, d)`:
`MINYEAR = 1`, `MAXYEAR = 9999`. -/
def isValidDate (y m d : Nat) : Bool :=
  1 ≤ y && y ≤ 9999 && 1 ≤ m && m ≤ 12 && 1 ≤ d && d ≤ daysInMonth y m

/-- Python `date(y, m, d)` on integer arguments: `None` models the
`ValueError` raised on an out-of-range triple. -/
def mkDate (y m d : Int) : Option Date :=
  if 0 ≤ y ∧ 0 ≤ m ∧ 0 ≤ d ∧ isValidDate y.toNat m.toNat d.toNat then
    some ⟨y.toNat, m.toNat, d.toNat⟩
  else none

/-- Days in all years before year `y` (proleptic Gregorian). -/
def daysBeforeYear (y : Nat) : Nat :=
  let p := y - 1
  p * 365 + p / 4 - p / 100 + p / 400

/-- Days in the months of year `y` before month `m`. -/
def daysBeforeMonth (y m : Nat) : Nat :=
  (List.range (m - 1)).foldl (fun a i => a + daysInMonth y (i + 1)) 0

/-- Python `date.toordinal()`: day number with 0001-01-01 = 1. -/
def toOrdinal (d : Date) : Nat :=
  daysBeforeYear d.year + daysBeforeMonth d.year d.month + d.day

/-- Python `date.weekday()`: Monday = 0 .. Sunday = 6
(0001-01-01 is a Monday in the proleptic Gregorian calendar). -/
def weekday (d : Date) : Nat :=
  (toOrdinal d + 6) % 7

/-- Sunday is weekday 6 (`calendar.SUNDAY`). -/
def isSunday (d : Date) : Bool :=
  weekday d = 6

/-! ## Date parsing and formatting (`parse_sheet_date`, ISO, `M/D/YYYY`) -/

/-- Model of `date.fromisoformat` restricted to the strict `YYYY-MM-DD` form
(the CPython <= 3.10 behaviour; the looser 3.11 forms never occur in
this system's data, which is written either ISO-padded or `M/D/YYYY`). -/
def fromIsoformat (s : String) : Option Date :=
  match s.data with
  | [y1, y2, y3, y4, h1, m1, m2, h2, d1, d2] =>
    if h1 = '-' ∧ h2 = '-' ∧ ([y1, y2, y3, y4, m1, m2, d1, d2].all Char.isDigit) then
      let y := ((y1.toNat - 48) * 10 + (y2.toNat - 48)) * 100
                 + (y3.toNat - 48) * 10 + (y4.toNat - 48)
      let m := (m1.toNat - 48) * 10 + (m2.toNat - 48)
      let d := (d1.toNat - 48) * 10 + (d2.toNat - 48)
      mkDate y m d
    else none
  | _ => none

/-- Model of `parse_sheet_date` (src/app.py:493): strip; empty gives `None`;
try ISO `YYYY-MM-DD`; then try `M/D/YYYY` by splitting on `/`;
`None` on anything else. -/
def parseSheetDate (value : String) : Option Date :=
  let s := pyStrip value
  if s = "" then none
  else
    match fromIsoformat s with
    | some d => some d
    | none =>
      match splitChar '/' s.data with
      | [p1, p2, p3] =>
        match readDigitsInt p1, readDigitsInt p2, readDigitsInt p3 with
        | some m, some d, some y => mkDate y m d
        | _, _, _ => none
      | _ => none
where
  /-- Python `int(str)` applied to one `/`-separated part. -/
  readDigitsInt (cs : List Char) : Option Int := parseInt ⟨cs⟩

/-- Two-digit zero-padded decimal. -/
def pad2 (n : Nat) : List Char :=
  [digitChar (n / 10), digitChar n]

/-- Python `date.isoformat()`: `YYYY-MM-DD`, zero padded. -/
def isoFormat (d : Date) : String :=
  ⟨[digitChar (d.year / 1000), digitChar (d.year / 100),
    digitChar (d.year / 10), digitChar d.year, '-'] ++
   pad2 d.month ++ '-' :: pad2 d.day⟩

/-- The export date format `f"{d.month}/{d.day}/{d.year}"` (unpadded
`M/D/YYYY`, src/app.py:1472). -/
def formatSlash (d : Date) : String :=
  ⟨natDigits d.month ++ '/' :: natDigits d.day ++ '/' :: natDigits d.year⟩

/-- Model of `generate_sundays_for_month` (src/app.py:344): all Sundays of the
month.  The source iterates `calendar.monthdatescalendar` (which covers
every day of the month plus padding days of adjacent months) keeping
days in the month with weekday `SUNDAY`; this equals filtering the
month's days for Sundays. -/
def generateSundaysForMonth (y m : Nat) : List Date :=
  ((List.range (daysInMonth y m)).map (fun i => Date.mk y m (i + 1))).filter isSunday

/-! ## Tolerant numeric parsing (`parse_float`) -/

/-- Python `float(s)` on the already comma-stripped text: optional sign,
decimal digits with at most one point (`"5."`, `".5"` accepted).
Exponent and `inf`/`nan` forms are not modelled; they never occur in
this sheet data and would only change which garbage defaults to 0. -/
def parseFloatCore (cs : List Char) : Option ℚ :=
  let signed : Bool × List Char :=
    match cs with
    | '-' :: t => (true, t)
    | '+' :: t => (false, t)
    | t => (false, t)
  let app (q : ℚ) : ℚ := if signed.1 then -q else q
  match splitChar '.' signed.2 with
  | [ip] =>
    if ip ≠ [] ∧ ip.all Char.isDigit then some (app (digitsVal ip)) else none
  | [ip, fp] =>
    if (ip ≠ [] ∨ fp ≠ []) ∧ (ip ++ fp).all Char.isDigit then
      some (app ((digitsVal ip : ℚ) + (digitsVal fp : ℚ) / (10 : ℚ) ^ fp.length))
    else none
  | _ => none

/-- Model of `parse_float` (src/app.py:482): strip, empty gives 0.0, drop commas,
`float(..)`, defaulting to 0.0 on failure. -/
def parseFloat (value : String) : ℚ :=
  let s := pyStrip value
  if s = "" then 0
  else
    match parseFloatCore (s.data.filter (· ≠ ',')) with
    | some q => q
    | none => 0

/-! ## Header-alias column lookup and the cache data model -/

/-- Model of `_lower` (src/app.py:519): strip then lowercase. -/
def lowerKey (s : String) : String :=
  pyLower (pyStrip s)

/-- Model of `_find_col` (src/app.py:523): first index whose header equals the
wanted name, case-insensitively after stripping. -/
def findCol (headers : List String) (wanted : String) : Option Nat :=
  headers.findIdx? (fun h => lowerKey h = lowerKey wanted)

/-- Model of `cell(row, idx)` as defined inside the sync loops: empty when the
column is unresolved or the row is short. -/
def cellAt (row : List String) (idx : Option Nat) : String :=
  match idx with
  | none => ""
  | some i => row.getD i ""

/-- One row of `sheet_report_cache` (src/app.py:217). -/
structure CacheReportRow where
  sheet_row : Nat
  year : Nat
  month : Nat
  activity_date : String
  church : String
  pastor : String
  address : String
  adult : ℚ
  youth : ℚ
  children : ℚ
  tithes : ℚ
  offering : ℚ
  personal_tithes : ℚ
  mission_offering : ℚ
  received_jesus : ℚ
  existing_bible_study : ℚ
  new_bible_study : ℚ
  water_baptized : ℚ
  holy_spirit_baptized : ℚ
  childrens_dedication : ℚ
  healed : ℚ
  amount_to_send : ℚ
  status : String
deriving DecidableEq, Repr

/-- One row of `sheet_accounts_cache` (src/app.py:191). -/
structure AccountCacheRow where
  username : String
  name : String
  church_address : String
  password : String
  age : String
  sex : String
  contact : String
  birthday : String
  position : String
  sheet_row : Nat
deriving DecidableEq, Repr

/-- One row of `sheet_aopt_cache` (src/app.py:256). -/
structure AoptCacheRow where
  month : String
  amount : ℚ
  sheet_row : Nat
deriving DecidableEq, Repr

/-- One row of `sheet_prayer_request_cache` (src/app.py:273). -/
structure PrayerCacheRow where
  request_id : String
  church_name : String
  submitted_by : String
  title : String
  request_date : String
  request_text : String
  status : String
  pastors_praying : String
  answered_date : String
  sheet_row : Nat
deriving DecidableEq, Repr

/-- The four cache tables replaced by a sync pass. -/
structure CacheState where
  accounts : List AccountCacheRow
  report : List CacheReportRow
  aopt : List AoptCacheRow
  prayer : List PrayerCacheRow
deriving DecidableEq, Repr

/-- Model of `INSERT OR REPLACE` on a table keyed by `key`: SQLite deletes any
conflicting row and appends the new one. -/
def upsertBy {α : Type} (key : α → String) (row : α) (tbl : List α) : List α :=
  tbl.filter (fun t => key t ≠ key row) ++ [row]

/-! ## Sync engine: the Report tab (src/app.py:653-752) -/

/-- The physical column index of each logical Report column, resolved
once per sync pass from the tab's header row. -/
structure ReportIdx where
  activity : Option Nat
  status : Option Nat
  church : Option Nat
  pastor : Option Nat
  address : Option Nat
  adult : Option Nat
  youth : Option Nat
  children : Option Nat
  tithes : Option Nat
  offering : Option Nat
  personal : Option Nat
  mission : Option Nat
  recv : Option Nat
  exist : Option Nat
  new : Option Nat
  water : Option Nat
  holy : Option Nat
  ded : Option Nat
  healed : Option Nat
  send : Option Nat
deriving DecidableEq, Repr

/-- Header resolution for the Report tab (src/app.py:663-689). -/
def resolveReportIdx (headers : List String) : ReportIdx where
  activity := findCol headers "activity_date"
  status := findCol headers "status"
  church := findCol headers "church"
  pastor := findCol headers "pastor"
  address := findCol headers "address"
  adult := findCol headers "adult"
  youth := findCol headers "youth"
  children := findCol headers "children"
  tithes := findCol headers "tithes"
  offering := findCol headers "offering"
  personal := findCol headers "personal tithes"
  mission := findCol headers "mission offering"
  recv := findCol headers "received jesus"
  exist := findCol headers "existing bible study"
  new := findCol headers "new bible study"
  water := findCol headers "water baptized"
  holy := findCol headers "holy spirit baptized"
  ded := findCol headers "childrens dedication"
  healed := findCol headers "healed"
  send := findCol headers "amount to send"

/-- The body of the Report sync loop for one data row
(src/app.py:698-752): skip when the activity cell is blank or fails to
parse; otherwise build the cache row (`sheet_row` is filled in by the
caller, which knows the physical row number). -/
def parseReportRowWith (ix : ReportIdx) (row : List String) : Option CacheReportRow :=
  let activity := pyStrip (cellAt row ix.activity)
  if activity = "" then none
  else
    match parseSheetDate activity with
    | none => none
    | some d =>
      some {
        sheet_row := 0
        year := d.year
        month := d.month
        activity_date := isoFormat d
        church := pyStrip (cellAt row ix.church)
        pastor := pyStrip (cellAt row ix.pastor)
        address := pyStrip (cellAt row ix.address)
        adult := parseFloat (cellAt row ix.adult)
        youth := parseFloat (cellAt row ix.youth)
        children := parseFloat (cellAt row ix.children)
        tithes := parseFloat (cellAt row ix.tithes)
        offering := parseFloat (cellAt row ix.offering)
        personal_tithes := parseFloat (cellAt row ix.personal)
        mission_offering := parseFloat (cellAt row ix.mission)
        received_jesus := parseFloat (cellAt row ix.recv)
        existing_bible_study := parseFloat (cellAt row ix.exist)
        new_bible_study := parseFloat (cellAt row ix.new)
        water_baptized := parseFloat (cellAt row ix.water)
        holy_spirit_baptized := parseFloat (cellAt row ix.holy)
        childrens_dedication := parseFloat (cellAt row ix.ded)
        healed := parseFloat (cellAt row ix.healed)
        amount_to_send := parseFloat (cellAt row ix.send)
        status := pyStrip (cellAt row ix.status)
      }

/-- The Report sync loop over data rows; `r` is the 1-based index of the
current row within the raw grid (the loop starts at `r = 1`, the first
row after the header), so the recorded physical row is `r + 1`. -/
def syncReportAux (ix : ReportIdx) (r : Nat) : List (List String) → List CacheReportRow
  | [] => []
  | row :: rest =>
    match parseReportRowWith ix row with
    | none => syncReportAux ix (r + 1) rest
    | some c => { c with sheet_row := r + 1 } :: syncReportAux ix (r + 1) rest

/-- Rebuild of `sheet_report_cache` from one raw read of the Report tab
(empty unless the grid has a header row and at least one data row). -/
def syncReportGrid (values : List (List String)) : List CacheReportRow :=
  match values with
  | [] => []
  | headers :: dataRows =>
    if dataRows.isEmpty then []
    else syncReportAux (resolveReportIdx headers) 1 dataRows

/-! ## Sync engine: Accounts, AOPT, PrayerRequest tabs -/

/-- The Accounts sync pass (src/app.py:602-648), including the
`Area Number`/`Age` and `Church ID`/`Sex` header aliases; rows with a
blank username are skipped; `INSERT OR REPLACE` keyed by username. -/
def syncAccountsGrid (values : List (List String)) : List AccountCacheRow :=
  match values with
  | [] => []
  | headers :: dataRows =>
    if dataRows.isEmpty then []
    else
      let iName := findCol headers "Name"
      let iUser := findCol headers "UserName"
      let iPass := findCol headers "Password"
      let iAddr := findCol headers "Church Address"
      let iAge := (findCol headers "Area Number").orElse (fun _ => findCol headers "Age")
      let iSex := (findCol headers "Church ID").orElse (fun _ => findCol headers "Sex")
      let iContact := findCol headers "Contact #"
      let iBday := findCol headers "Birth Day"
      let iPos := findCol headers "Position"
      let step (acc : List AccountCacheRow × Nat) (row : List String) :
          List AccountCacheRow × Nat :=
        let (tbl, r) := acc
        let username := pyStrip (cellAt row iUser)
        if username = "" then (tbl, r + 1)
        else
          (upsertBy AccountCacheRow.username
            { username := username
              name := pyStrip (cellAt row iName)
              church_address := pyStrip (cellAt row iAddr)
              password := pyStrip (cellAt row iPass)
              age := pyStrip (cellAt row iAge)
              sex := pyStrip (cellAt row iSex)
              contact := pyStrip (cellAt row iContact)
              birthday := pyStrip (cellAt row iBday)
              position := pyStrip (cellAt row iPos)
              sheet_row := r + 1 } tbl, r + 1)
      (dataRows.foldl step ([], 1)).1

/-- The AOPT sync pass (src/app.py:766-790): skip blank month labels;
`INSERT OR REPLACE` keyed by month label. -/
def syncAoptGrid (values : List (List String)) : List AoptCacheRow :=
  match values with
  | [] => []
  | headers :: dataRows =>
    if dataRows.isEmpty then []
    else
      let iMonth := findCol headers "Month"
      let iAmount := findCol headers "Amount"
      let step (acc : List AoptCacheRow × Nat) (row : List String) :
          List AoptCacheRow × Nat :=
        let (tbl, r) := acc
        let label := pyStrip (cellAt row iMonth)
        if label = "" then (tbl, r + 1)
        else
          (upsertBy AoptCacheRow.month
            { month := label
              amount := parseFloat (cellAt row iAmount)
              sheet_row := r + 1 } tbl, r + 1)
      (dataRows.foldl step ([], 1)).1

/-- The PrayerRequest sync pass (src/app.py:804-849): skip blank request
ids; `INSERT OR REPLACE` keyed by request id. -/
def syncPrayerGrid (values : List (List String)) : List PrayerCacheRow :=
  match values with
  | [] => []
  | headers :: dataRows =>
    if dataRows.isEmpty then []
    else
      let iChurch := findCol headers "Church Name"
      let iBy := findCol headers "Submitted By"
      let iId := findCol headers "Request ID"
      let iTitle := findCol headers "Prayer Request Title"
      let iDate := findCol headers "Prayer Request Date"
      let iText := findCol headers "Prayer Request"
      let iStatus := findCol headers "Status"
      let iPraying := findCol headers "Pastor's Praying"
      let iAnswered := findCol headers "Answered Date"
      let step (acc : List PrayerCacheRow × Nat) (row : List String) :
          List PrayerCacheRow × Nat :=
        let (tbl, r) := acc
        let reqId := pyStrip (cellAt row iId)
        if reqId = "" then (tbl, r + 1)
        else
          (upsertBy PrayerCacheRow.request_id
            { request_id := reqId
              church_name := pyStrip (cellAt row iChurch)
              submitted_by := pyStrip (cellAt row iBy)
              title := pyStrip (cellAt row iTitle)
              request_date := pyStrip (cellAt row iDate)
              request_text := pyStrip (cellAt row iText)
              status := pyStrip (cellAt row iStatus)
              pastors_praying := pyStrip (cellAt row iPraying)
              answered_date := pyStrip (cellAt row iAnswered)
              sheet_row := r + 1 } tbl, r + 1)
      (dataRows.foldl step ([], 1)).1

/-! ## `sync_from_sheets_if_needed` (src/app.py:571) -/

/-- Sync interval: 120 seconds (src/app.py:535). -/
def SYNC_INTERVAL_SECONDS : Int := 120

/-- Result of one call to `sync_from_sheets_if_needed`: the cache tables,
the `sync_state.last_sync` timestamp, and whether an external read of
the spreadsheet was attempted during the call. -/
structure SyncResult where
  cache : CacheState
  lastSync : Option Int
  didRead : Bool
deriving DecidableEq, Repr

/-- Model of `sync_from_sheets_if_needed(force)`.  `now` is the current UTC time
in seconds; `openRes` is `none` when opening the spreadsheet raises
(early return, nothing touched); each `tabRes` is `none` when reading
that tab raises, in which case the loop continues with an empty grid
for that tab — note the cache `DELETE` still runs, so that tab's table
ends up empty.  On completion `last_sync` is set to `now`. -/
def syncFromSheetsIfNeeded (force : Bool) (now : Int) (lastSync : Option Int)
    (openRes : Option Unit)
    (accTab repTab aoptTab prTab : Option (List (List String)))
    (cache : CacheState) : SyncResult :=
  let gated : Bool :=
    !force && (match lastSync with
      | some t => decide (now - t < SYNC_INTERVAL_SECONDS)
      | none => false)
  if gated then ⟨cache, lastSync, false⟩
  else
    match openRes with
    | none => ⟨cache, lastSync, true⟩
    | some _ =>
      ⟨{ accounts := syncAccountsGrid (accTab.getD [])
         report := syncReportGrid (repTab.getD [])
         aopt := syncAoptGrid (aoptTab.getD [])
         prayer := syncPrayerGrid (prTab.getD []) },
       some now, true⟩

/-! ## Sorting helpers (SQL `ORDER BY`, Python `sorted(..., reverse=True)`) -/

/-- Insert into a descending-sorted list of naturals. -/
def insertDesc (a : Nat) : List Nat → List Nat
  | [] => [a]
  | b :: bs => if b ≤ a then a :: b :: bs else b :: insertDesc a bs

/-- Sort naturals in descending order (Python `sorted(s, reverse=True)`). -/
def sortDesc : List Nat → List Nat
  | [] => []
  | a :: as => insertDesc a (sortDesc as)

/-- Insert into a list sorted ascending by a string key (byte order). -/
def insertByKey {α : Type} (key : α → String) (a : α) : List α → List α
  | [] => [a]
  | b :: bs => if lexLe (key a).data (key b).data then a :: b :: bs else b :: insertByKey key a bs

/-- SQL `ORDER BY key` (ascending, stable enough for these claims). -/
def sortByKey {α : Type} (key : α → String) : List α → List α
  | [] => []
  | a :: as => insertByKey key a (sortByKey key as)

/-! ## Local working tables (`monthly_reports`, `sunday_reports`, `church_progress`) -/

/-- One `monthly_reports` row (src/app.py:92). -/
structure MonthlyReportRow where
  id : Nat
  year : Nat
  month : Nat
  pastor_username : String
  submitted : Nat
  approved : Nat
deriving DecidableEq, Repr

/-- One `sunday_reports` row (src/app.py:108).  The `date` TEXT column
always holds `d.isoformat()` of a valid date (rows are only created from
`generate_sundays_for_month` or from a parsed cache date), so it is
modelled as a `Date`; nullable REAL columns are `Option` rationals. -/
structure SundayReportRow where
  id : Nat
  monthly_report_id : Nat
  date : Date
  is_complete : Nat
  attendance_adult : Option ℚ
  attendance_youth : Option ℚ
  attendance_children : Option ℚ
  attendance_total : Option ℚ
  tithes_church : Option ℚ
  offering : Option ℚ
  mission : Option ℚ
  tithes_personal : Option ℚ
deriving DecidableEq, Repr

/-- One `church_progress` row (src/app.py:129). -/
structure ChurchProgressRow where
  id : Nat
  monthly_report_id : Nat
  bible_new : Option Int
  bible_existing : Option Int
  received_christ : Option Int
  baptized_water : Option Int
  baptized_holy_spirit : Option Int
  healed : Option Int
  child_dedication : Option Int
  is_complete : Nat
deriving DecidableEq, Repr

/-- The local working tables plus their AUTOINCREMENT counters. -/
structure LocalState where
  monthly_reports : List MonthlyReportRow
  sunday_reports : List SundayReportRow
  church_progress : List ChurchProgressRow
  next_mr_id : Nat
  next_sr_id : Nat
  next_cp_id : Nat
deriving DecidableEq, Repr

/-- The per-request session fields these code paths read.  The values of
`pastor_name` / `pastor_church_address` / `pastor_church_id` are the
post-`refresh_pastor_from_cache()` values (that helper only copies the
logged-in pastor's Accounts-cache fields into the session). -/
structure Session where
  pastor_username : String
  pastor_name : String
  pastor_church_address : String
  pastor_church_id : String
  dirtyMonths : List (Nat × Nat)
deriving DecidableEq, Repr

/-- Model of `is_month_dirty` (src/app.py:927): the session key `dirty_{y}_{m}`. -/
def isMonthDirty (sess : Session) (y m : Nat) : Bool :=
  (y, m) ∈ sess.dirtyMonths

/-- Model of the query `SELECT * FROM monthly_reports WHERE year=? AND month=? AND
pastor_username=?` (unique triple). -/
def findMR (st : LocalState) (y m : Nat) (user : String) : Option MonthlyReportRow :=
  st.monthly_reports.find? (fun r => r.year = y ∧ r.month = m ∧ r.pastor_username = user)

/-- Model of `get_or_create_monthly_report` (src/app.py:312); only reached with a
nonempty username (the caller checked, so the `ValueError` path is dead). -/
def getOrCreateMR (st : LocalState) (y m : Nat) (user : String) :
    MonthlyReportRow × LocalState :=
  match findMR st y m user with
  | some r => (r, st)
  | none =>
    let r : MonthlyReportRow := ⟨st.next_mr_id, y, m, user, 0, 0⟩
    (r, { st with monthly_reports := st.monthly_reports ++ [r]
                  next_mr_id := st.next_mr_id + 1 })

/-- Model of `ensure_sunday_reports` (src/app.py:354): `INSERT OR IGNORE` one row
per generated Sunday (UNIQUE on `(monthly_report_id, date)`). -/
def ensureSundayReports (st : LocalState) (mrid : Nat) (y m : Nat) : LocalState :=
  (generateSundaysForMonth y m).foldl
    (fun st d =>
      if st.sunday_reports.any (fun sr => sr.monthly_report_id = mrid ∧ sr.date = d) then st
      else
        { st with
          sunday_reports := st.sunday_reports ++
            [⟨st.next_sr_id, mrid, d, 0, none, none, none, none, none, none, none, none⟩]
          next_sr_id := st.next_sr_id + 1 })
    st

/-- Model of `ensure_church_progress` (src/app.py:436). -/
def ensureChurchProgress (st : LocalState) (mrid : Nat) :
    ChurchProgressRow × LocalState :=
  match st.church_progress.find? (fun r => r.monthly_report_id = mrid) with
  | some r => (r, st)
  | none =>
    let r : ChurchProgressRow :=
      ⟨st.next_cp_id, mrid, none, none, none, none, none, none, none, 0⟩
    (r, { st with church_progress := st.church_progress ++ [r]
                  next_cp_id := st.next_cp_id + 1 })

/-- Python `int(float(x or 0))` on a nullable REAL: truncation toward
zero of the value, 0 when NULL. -/
def pyIntTrunc (x : Option ℚ) : Int :=
  let q := x.getD 0
  q.num / (q.den : Int)

/-! ## Reconciliation (`sync_local_month_from_cache_for_pastor`, src/app.py:930) -/

/-- The cache query of the reconciliation pass: Report-cache rows for the
month whose trimmed address or church matches the trimmed church key, or
whose trimmed pastor matches the trimmed pastor name, ordered by
`activity_date`. -/
def reconMatchingRows (cache : List CacheReportRow) (y m : Nat)
    (churchKey pastorName : String) : List CacheReportRow :=
  sortByKey CacheReportRow.activity_date
    (cache.filter (fun r =>
      r.year = y ∧ r.month = m ∧
      (sqlTrim r.address = sqlTrim churchKey ∨ sqlTrim r.church = sqlTrim churchKey ∨
        sqlTrim r.pastor = sqlTrim pastorName)))

/-- The upsert of one Sunday's attendance/financial values from a cache
row (src/app.py:989-1051): insert a complete row, or overwrite the
existing `(monthly_report_id, date)` row in place. -/
def upsertSundayFromCache (st : LocalState) (mrid : Nat) (d : Date)
    (r : CacheReportRow) : LocalState :=
  match st.sunday_reports.find? (fun sr => sr.monthly_report_id = mrid ∧ sr.date = d) with
  | none =>
    { st with
      sunday_reports := st.sunday_reports ++
        [⟨st.next_sr_id, mrid, d, 1, some r.adult, some r.youth, some r.children, none,
          some r.tithes, some r.offering, some r.mission_offering, some r.personal_tithes⟩]
      next_sr_id := st.next_sr_id + 1 }
  | some sr =>
    { st with
      sunday_reports := st.sunday_reports.map (fun s =>
        if s.id = sr.id then
          { s with is_complete := 1
                   attendance_adult := some r.adult
                   attendance_youth := some r.youth
                   attendance_children := some r.children
                   tithes_church := some r.tithes
                   offering := some r.offering
                   mission := some r.mission_offering
                   tithes_personal := some r.personal_tithes }
        else s) }

/-- Model of `sync_local_month_from_cache_for_pastor` (src/app.py:930): project the
cached Report rows of one pastor-month into the local working tables,
unless the month is dirty.  Returns the updated local state. -/
def syncLocalMonthFromCacheForPastor (sess : Session) (cache : List CacheReportRow)
    (y m : Nat) (st : LocalState) : LocalState :=
  if isMonthDirty sess y m then st
  else
    let pastorUsername := pyStrip sess.pastor_username
    if pastorUsername = "" then st
    else
      let pastorName := pyStrip sess.pastor_name
      let churchAddress := pyStrip sess.pastor_church_address
      let churchId := pyStrip sess.pastor_church_id
      let churchKey := if churchId ≠ "" then churchId else churchAddress
      if pastorName = "" ∧ churchAddress = "" then st
      else
        let cachedRows := reconMatchingRows cache y m churchKey pastorName
        if cachedRows.isEmpty then st
        else
          let mrSt := getOrCreateMR st y m pastorUsername
          let mrid := mrSt.1.id
          let st := ensureSundayReports mrSt.2 mrid y m
          -- the row loop, carrying (state, statuses set, cp_seed)
          let loop := cachedRows.foldl
            (fun (acc : LocalState × List String × Option CacheReportRow) r =>
              let activity := pyStrip r.activity_date
              if activity = "" then acc
              else
                match parseSheetDate activity with
                | none => acc
                | some d =>
                  let sts := acc.2.1.insert (pyStrip r.status)
                  let seed := match acc.2.2 with
                    | none => some r
                    | some s => some s
                  (upsertSundayFromCache acc.1 mrid d r, sts, seed))
            (st, [], none)
          let st := loop.1
          let statuses := loop.2.1
          let cpSt := ensureChurchProgress st mrid
          let st := cpSt.2
          let st :=
            match loop.2.2 with
            | none => st
            | some seed =>
              { st with
                church_progress := st.church_progress.map (fun cp : ChurchProgressRow =>
                  if cp.id = cpSt.1.id then
                    { cp with
                      bible_new := some (pyIntTrunc (some seed.new_bible_study))
                      bible_existing := some (pyIntTrunc (some seed.existing_bible_study))
                      received_christ := some (pyIntTrunc (some seed.received_jesus))
                      baptized_water := some (pyIntTrunc (some seed.water_baptized))
                      baptized_holy_spirit := some (pyIntTrunc (some seed.holy_spirit_baptized))
                      healed := some (pyIntTrunc (some seed.healed))
                      child_dedication := some (pyIntTrunc (some seed.childrens_dedication))
                      is_complete := 1 }
                  else cp) }
          -- src/app.py:1080: `submitted = 1 if any(s.strip() for s in statuses) else 1`
          -- (both branches are 1, so submitted is 1 whenever this point is reached)
          let submitted : Nat :=
            if statuses.any (fun s => pyStrip s ≠ "") then 1 else 1
          let approved : Nat :=
            if statuses.any (fun s => containsSub (pyLower s) "approved") then 1 else 0
          { st with
            monthly_reports := st.monthly_reports.map (fun r : MonthlyReportRow =>
              if r.id = mrid then { r with submitted := submitted, approved := approved }
              else r) }

/-! ## Export layer (src/app.py:1283-1508) -/

/-- Decimal cell text of an integer (Python `str`). -/
def intCell (i : Int) : String :=
  if i < 0 then ⟨'-' :: natDigits i.natAbs⟩ else natLit i.natAbs

/-- Cell text of a numeric value written through the sheets API.  The
precise decimal rendering is irrelevant to every claim (no claim reads a
numeric cell back); what matters is only that it is some string. -/
def numCell (q : ℚ) : String :=
  if q.den = 1 then intCell q.num
  else intCell q.num ++ "/" ++ natLit q.den

/-- The Report sheet's canonical header row
(`_ensure_report_sheet_headers`, src/app.py:1351-1372). -/
def canonicalReportHeaders : List String :=
  ["church", "pastor", "address", "adult", "youth", "children",
   "tithes", "offering", "personal tithes", "mission offering",
   "received jesus", "existing bible study", "new bible study",
   "water baptized", "holy spirit baptized", "childrens dedication",
   "healed", "activity_date", "amount to send", "status"]

/-- The `report_data` dict built per Sunday row (src/app.py:1481-1502). -/
structure ReportData where
  church : String
  pastor : String
  address : String
  adult : ℚ
  youth : ℚ
  children : ℚ
  tithes : ℚ
  offering : ℚ
  personal_tithes : ℚ
  mission_offering : ℚ
  received_jesus : Int
  existing_bible_study : Int
  new_bible_study : Int
  water_baptized : Int
  holy_spirit_baptized : Int
  childrens_dedication : Int
  healed : Int
  activity_date : String
  amount_to_send : ℚ
  status : String
deriving DecidableEq, Repr

/-- Build the `report_data` for one local Sunday row (src/app.py:1468-1502):
null fields default to 0, `amount_to_send` is the sum of the four
financial fields, the activity date is `M/D/YYYY`, the status is the
label passed to the export. -/
def exportedRowData (churchId churchAddress pastorName : String)
    (cp : ChurchProgressRow) (label : String) (r : SundayReportRow) : ReportData where
  church := if churchId ≠ "" then churchId else churchAddress
  pastor := pastorName
  address := churchAddress
  adult := r.attendance_adult.getD 0
  youth := r.attendance_youth.getD 0
  children := r.attendance_children.getD 0
  tithes := r.tithes_church.getD 0
  offering := r.offering.getD 0
  personal_tithes := r.tithes_personal.getD 0
  mission_offering := r.mission.getD 0
  received_jesus := cp.received_christ.getD 0
  existing_bible_study := cp.bible_existing.getD 0
  new_bible_study := cp.bible_new.getD 0
  water_baptized := cp.baptized_water.getD 0
  holy_spirit_baptized := cp.baptized_holy_spirit.getD 0
  childrens_dedication := cp.child_dedication.getD 0
  healed := cp.healed.getD 0
  activity_date := formatSlash r.date
  amount_to_send :=
    r.tithes_church.getD 0 + r.offering.getD 0 + r.mission.getD 0 + r.tithes_personal.getD 0
  status := label

/-- The 20-cell sheet row appended for one `report_data`
(`append_report_to_sheet`, src/app.py:1388-1409; canonical column order). -/
def buildSheetRow (rd : ReportData) : List String :=
  [rd.church, rd.pastor, rd.address,
   numCell rd.adult, numCell rd.youth, numCell rd.children,
   numCell rd.tithes, numCell rd.offering, numCell rd.personal_tithes,
   numCell rd.mission_offering,
   intCell rd.received_jesus, intCell rd.existing_bible_study,
   intCell rd.new_bible_study, intCell rd.water_baptized,
   intCell rd.holy_spirit_baptized, intCell rd.childrens_dedication,
   intCell rd.healed,
   rd.activity_date, numCell rd.amount_to_send, rd.status]

/-- The WHERE clause of `_delete_report_rows_for_month_in_sheet`
(src/app.py:1293-1306): same year/month, church key against church or
address, and the pastor name. -/
def matchesExportQuery (y m : Nat) (key pname : String) (r : CacheReportRow) : Bool :=
  r.year = y ∧ r.month = m ∧
    (sqlTrim r.church = sqlTrim key ∨ sqlTrim r.address = sqlTrim key) ∧
    sqlTrim r.pastor = sqlTrim pname

/-- The physical rows to delete: cache locators of matching rows,
deduplicated (Python `set`) and sorted in descending order
(src/app.py:1308). -/
def exportLocators (cache : List CacheReportRow) (y m : Nat)
    (key pname : String) : List Nat :=
  sortDesc ((((cache.filter (matchesExportQuery y m key pname)).map
    CacheReportRow.sheet_row).filter (fun n => n ≠ 0)).dedup)

/-- Bottom-to-top deletion of the listed physical rows
(src/app.py:1316-1319); physical row `l` is grid index `l - 1`, and the
header row (`l = 1`) is never deleted. -/
def deleteRowsDesc (values : List (List String)) (ls : List Nat) : List (List String) :=
  ls.foldl (fun vs l => if 1 < l then vs.eraseIdx (l - 1) else vs) values

/-- The local Sunday rows of one monthly report, ordered by date
(src/app.py:1435-1443). -/
def sundayRowsFor (st : LocalState) (mrid : Nat) : List SundayReportRow :=
  sortByKey (fun sr => isoFormat sr.date)
    (st.sunday_reports.filter (fun sr => sr.monthly_report_id = mrid))

/-- Model of `export_month_to_sheet` (src/app.py:1416): no-op unless a pastor is
logged in, a monthly report exists and it has Sunday rows; otherwise
delete the previously recorded matching sheet rows and append one row
per local Sunday.  `cache` is the Report cache as of the
`sync_from_sheets_if_needed()` call inside the export, and the session
fields are the post-`refresh_pastor_from_cache()` values.  Per-row
append failures are logged and skipped in the source; the model is the
all-appends-succeed run, which is the case the resubmission claims are
about. -/
def exportMonthToSheet (sess : Session) (st : LocalState)
    (cache : List CacheReportRow) (values : List (List String))
    (y m : Nat) (label : String) : List (List String) :=
  let user := pyStrip sess.pastor_username
  if user = "" then values
  else
    match findMR st y m user with
    | none => values
    | some mr =>
      let cp := (ensureChurchProgress st mr.id).1
      let sundayRows := sundayRowsFor st mr.id
      if sundayRows.isEmpty then values
      else
        let pastorName := sess.pastor_name
        let churchAddress := sess.pastor_church_address
        let churchId := pyStrip sess.pastor_church_id
        let churchKey := if churchId ≠ "" then churchId else churchAddress
        let deleted := deleteRowsDesc values (exportLocators cache y m churchKey pastorName)
        deleted ++ sundayRows.map (fun r =>
          buildSheetRow (exportedRowData churchId churchAddress pastorName cp label r))

/-- The number of external Report rows recorded for one
(year, month, church key, pastor) tuple: rows of a fresh sync of the
grid that satisfy the export-delete query. -/
def reportMatchCount (values : List (List String)) (y m : Nat)
    (key pname : String) : Nat :=
  ((syncReportGrid values).filter (matchesExportQuery y m key pname)).length

/-! ## AO approval status updates (src/app.py:1227-1276) -/

/-- The WHERE clause shared by the AO status updates: year, month and the
church key against church or address (no pastor). -/
def matchesChurchMonth (y m : Nat) (key : String) (r : CacheReportRow) : Bool :=
  r.year = y ∧ r.month = m ∧
    (sqlTrim r.address = sqlTrim key ∨ sqlTrim r.church = sqlTrim key)

/-- Model of `cache_update_status_for_church_month` (src/app.py:1227): set the
status column of every matching cache row. -/
def cacheUpdateStatusForChurchMonth (y m : Nat) (key label : String)
    (cache : List CacheReportRow) : List CacheReportRow :=
  cache.map (fun r =>
    if matchesChurchMonth y m key r then { r with status := label } else r)

/-- Replace the element at index `i` (no-op out of bounds). -/
def updAt {α : Type} (i : Nat) (f : α → α) : List α → List α
  | [] => []
  | a :: as =>
    match i with
    | 0 => f a :: as
    | j + 1 => a :: updAt j f as

/-- One cell of the raw grid (empty when out of bounds). -/
def getCell (g : List (List String)) (i j : Nat) : String :=
  (g.getD i []).getD j ""

/-- One batch-update entry: set the single cell at physical row `r`,
column `idx` (grid position `(r - 1, idx)`) to the label. -/
def applyStatusCell (label : String) (idx : Nat) (g : List (List String))
    (r : Nat) : List (List String) :=
  updAt (r - 1) (fun row => updAt idx (fun _ => label) row) g

/-- Model of `sheet_batch_update_status_for_church_month` (src/app.py:1241): look
up the matching cache rows' physical row numbers, resolve the status
column from the live header row, and batch-update exactly the cell
`(row, status column)` of each located row to the label.  (The A1 range
 written is `chr(ord("A")+idx)` followed by the row number; the single
cell it denotes is grid position `(row - 1, idx)`.) -/
def sheetBatchUpdateStatusForChurchMonth (y m : Nat) (key label : String)
    (cache : List CacheReportRow) (values : List (List String)) :
    List (List String) :=
  let sheetRows := ((cache.filter (matchesChurchMonth y m key)).map
    CacheReportRow.sheet_row).filter (fun n => n ≠ 0)
  if sheetRows.isEmpty then values
  else
    match values with
    | [] => values
    | headers :: _ =>
      match findCol headers "status" with
      | none => values
      | some idx => sheetRows.foldl (applyStatusCell label idx) values

/-! ## Verse of the day (src/app.py:1700-1747) -/

/-- The list `VERSE_REFERENCES` (src/app.py:1700). -/
def VERSE_REFERENCES : List String :=
  ["John 3:16", "Psalm 23:1", "Romans 8:28", "Proverbs 3:5-6",
   "Isaiah 40:31", "Philippians 4:6-7", "Jeremiah 29:11",
   "Matthew 5:16", "Ephesians 2:8-9", "Psalm 46:1"]

/-- One row of the `verses` table (UNIQUE on `date`). -/
structure VerseRow where
  date : String
  reference : String
  text : String
deriving DecidableEq, Repr

/-- Model of `get_verse_of_the_day` (src/app.py:1714).  `fetch` is the `text`
field of the external lookup's JSON body: `none` for any failure
(network error, non-2xx, malformed body, missing field).  Returns the
(reference, text) pair, the updated `verses` table, and whether an
external HTTP call was made. -/
def getVerseOfTheDay (today : Date) (fetch : Option String)
    (verses : List VerseRow) : (String × String) × List VerseRow × Bool :=
  let todayStr := isoFormat today
  match verses.find? (fun r => r.date = todayStr) with
  | some row => ((row.reference, row.text), verses, false)
  | none =>
    let idx := toOrdinal today % VERSE_REFERENCES.length
    let reference := VERSE_REFERENCES.getD idx ""
    let verseText :=
      match fetch with
      | none => reference
      | some t => if pyStrip t ≠ "" then pyStrip t else reference
    (((reference, verseText),
      (verses.filter (fun r => r.date ≠ todayStr)) ++ [⟨todayStr, reference, verseText⟩],
      true))

/-- Sequential single-index deletions (the shape of the bottom-to-top
sheet deletion once converted to 0-based data indices). -/
def eraseIdxs {α : Type} (s : List α) (ks : List Nat) : List α :=
  ks.foldl (fun t k => t.eraseIdx k) s


/-! ## Concrete fixtures used by the claim witnesses -/

/-- A clean pastor session (no dirty months). -/
def wSession : Session := ⟨"juan", "Juan Cruz", "123 Main St", "C1", []⟩

/-- The same session with January 2026 marked dirty. -/
def wDirtySession : Session := ⟨"juan", "Juan Cruz", "123 Main St", "C1", [(2026, 1)]⟩

/-- A cached Report row for Sunday 2026-01-04 of that pastor whose
status string is blank. -/
def wCacheRowBlank : CacheReportRow :=
  { sheet_row := 2, year := 2026, month := 1, activity_date := "2026-01-04",
    church := "C1", pastor := "Juan Cruz", address := "123 Main St",
    adult := 10, youth := 5, children := 3, tithes := 100, offering := 50,
    personal_tithes := 20, mission_offering := 30, received_jesus := 1,
    existing_bible_study := 2, new_bible_study := 3, water_baptized := 0,
    holy_spirit_baptized := 0, childrens_dedication := 0, healed := 0,
    amount_to_send := 200, status := "" }

/-- Empty local working tables. -/
def wEmptyState : LocalState := ⟨[], [], [], 1, 1, 1⟩

/-- A cache state whose Report table is nonempty. -/
def wCacheWithReport : CacheState := ⟨[], [wCacheRowBlank], [], []⟩

/-- The monthly report and local Sunday rows of pastor juan for January
2026 (Sundays 4, 11, 18, 25), with identical values each week. -/
def wLocalJan : LocalState :=
  ⟨[⟨1, 2026, 1, "juan", 0, 0⟩],
   [⟨1, 1, ⟨2026, 1, 4⟩, 1, some 10, some 5, some 3, none, some 100, some 50, some 30, some 20⟩,
    ⟨2, 1, ⟨2026, 1, 11⟩, 1, some 10, some 5, some 3, none, some 100, some 50, some 30, some 20⟩,
    ⟨3, 1, ⟨2026, 1, 18⟩, 1, some 10, some 5, some 3, none, some 100, some 50, some 30, some 20⟩,
    ⟨4, 1, ⟨2026, 1, 25⟩, 1, some 10, some 5, some 3, none, some 100, some 50, some 30, some 20⟩],
   [⟨1, 1, some 3, some 2, some 1, some 0, some 0, some 0, some 0, 1⟩],
   2, 5, 2⟩


/-! ## Lemmas: digits, printing/parsing round trips -/

theorem digitChar_toNat (n : Nat) : (digitChar n).toNat = 48 + n % 10 := by
  have h : n % 10 < 10 := Nat.mod_lt _ (by omega)
  unfold digitChar
  split <;> simp_all <;> omega

theorem digitChar_isDigit (n : Nat) : (digitChar n).isDigit = true := by
  unfold digitChar
  split <;> decide

theorem digitChar_not_ws (n : Nat) : (digitChar n).isWhitespace = false := by
  unfold digitChar
  split <;> decide

theorem natDigits_ne_nil (n : Nat) : natDigits n ≠ [] := by
  rw [natDigits]
  split <;> simp

theorem natDigits_all_digit (n : Nat) : ∀ c ∈ natDigits n, c.isDigit = true := by
  induction n using Nat.strong_induction_on with
  | _ n ih =>
    rw [natDigits]
    split
    · intro c hc
      rw [List.mem_singleton] at hc
      subst hc
      exact digitChar_isDigit n
    · intro c hc
      rcases List.mem_append.1 hc with h | h
      · exact ih (n / 10) (Nat.div_lt_self (by omega) (by omega)) c h
      · rw [List.mem_singleton] at h
        subst h
        exact digitChar_isDigit (n % 10)

theorem digitsVal_append_singleton (xs : List Char) (c : Char) :
    digitsVal (xs ++ [c]) = digitsVal xs * 10 + (c.toNat - 48) := by
  simp [digitsVal, List.foldl_append]

theorem digitsVal_natDigits (n : Nat) : digitsVal (natDigits n) = n := by
  induction n using Nat.strong_induction_on with
  | _ n ih =>
    rw [natDigits]
    split
    · simp [digitsVal, digitChar_toNat]
      omega
    · rw [digitsVal_append_singleton, ih (n / 10) (Nat.div_lt_self (by omega) (by omega)),
        digitChar_toNat]
      omega

theorem readDigits_natDigits (n : Nat) : readDigits (natDigits n) = some n := by
  rw [readDigits, if_pos, digitsVal_natDigits]
  exact ⟨natDigits_ne_nil n, List.all_eq_true.2 (natDigits_all_digit n)⟩

/-- A string whose characters contain no whitespace is unchanged by
Python `strip`. -/
theorem pyStrip_eq_self {s : String} (h : ∀ c ∈ s.data, c.isWhitespace = false) :
    pyStrip s = s := by
  unfold pyStrip
  have h1 : s.data.dropWhile Char.isWhitespace = s.data := by
    rw [List.dropWhile_eq_self_iff]
    intro hl
    simp only [List.get_eq_getElem]
    simp [h _ (List.getElem_mem _)]
  have h2 : s.data.reverse.dropWhile Char.isWhitespace = s.data.reverse := by
    rw [List.dropWhile_eq_self_iff]
    intro hl
    simp only [List.get_eq_getElem, List.getElem_reverse]
    simp [h _ (List.getElem_mem _)]
  rw [h1, h2, List.reverse_reverse]

theorem natLit_data (n : Nat) : (natLit n).data = natDigits n := rfl

theorem natLit_ne_empty (n : Nat) : natLit n ≠ "" := by
  intro h
  exact natDigits_ne_nil n (congrArg String.data h)

/-- A decimal digit character is not whitespace. -/
theorem isDigit_not_ws {c : Char} (hd : c.isDigit = true) : c.isWhitespace = false := by
  simp only [Char.isDigit, decide_eq_true_eq, Bool.and_eq_true] at hd
  simp only [Char.isWhitespace, Bool.or_eq_false_iff, decide_eq_false_iff_not]
  obtain ⟨h1, h2⟩ := hd
  refine ⟨⟨⟨?_, ?_⟩, ?_⟩, ?_⟩ <;>
    · intro hcw
      subst hcw
      revert h1 h2
      decide

theorem pyStrip_natLit (n : Nat) : pyStrip (natLit n) = natLit n := by
  apply pyStrip_eq_self
  intro c hc
  exact isDigit_not_ws (natDigits_all_digit n c hc)


theorem slash_not_in_natDigits (n : Nat) : '/' ∉ natDigits n := by
  intro h
  exact absurd (natDigits_all_digit n '/' h) (by decide)

theorem dash_not_in_natDigits (n : Nat) : '-' ∉ natDigits n := by
  intro h
  exact absurd (natDigits_all_digit n '-' h) (by decide)

theorem fromIso_none_of_no_dash {s : String} (h : '-' ∉ s.data) :
    fromIsoformat s = none := by
  unfold fromIsoformat
  split
  · rename_i y1 y2 y3 y4 h1c m1 m2 h2c d1 d2 heq
    refine if_neg ?_
    rintro ⟨rfl, -⟩
    exact h (by rw [heq]; simp)
  · rfl

theorem parseInt_digits {s : String} (hs : pyStrip s = s)
    (hne : s.data ≠ []) (hall : s.data.all Char.isDigit = true) :
    parseInt s = some (digitsVal s.data) := by
  unfold parseInt
  rw [hs]
  split
  · rename_i cs heq
    have : ('-' : Char).isDigit = true := by
      have := List.all_eq_true.1 hall '-' (by rw [heq]; simp)
      exact this
    exact absurd this (by decide)
  · rename_i cs heq
    have : ('+' : Char).isDigit = true := by
      have := List.all_eq_true.1 hall '+' (by rw [heq]; simp)
      exact this
    exact absurd this (by decide)
  · rw [readDigits, if_pos ⟨hne, hall⟩]
    rfl

theorem parseInt_natLit (n : Nat) : parseInt (natLit n) = some n := by
  rw [parseInt_digits (pyStrip_natLit n) (natDigits_ne_nil n)
    (List.all_eq_true.2 (natDigits_all_digit n)), natLit_data, digitsVal_natDigits]

theorem splitChar_of_not_mem {sep : Char} {a : List Char} (h : sep ∉ a) :
    splitChar sep a = [a] := by
  induction a with
  | nil => rfl
  | cons c cs ih =>
    have hcs : ¬(c = sep) := fun hc => h (by rw [← hc]; exact List.mem_cons_self c cs)
    rw [splitChar, if_neg hcs, ih (fun hc => h (List.mem_cons_of_mem c hc))]

theorem splitChar_append {sep : Char} {a rest : List Char} (h : sep ∉ a) :
    splitChar sep (a ++ sep :: rest) = a :: splitChar sep rest := by
  induction a with
  | nil => simp [splitChar]
  | cons c cs ih =>
    have hcs : ¬(c = sep) := fun hc => h (by rw [← hc]; exact List.mem_cons_self c cs)
    rw [List.cons_append, splitChar, if_neg hcs,
      ih (fun hc => h (List.mem_cons_of_mem c hc))]


theorem daysInMonth_le (y m : Nat) : daysInMonth y m ≤ 31 := by
  unfold daysInMonth
  split
  · split <;> omega
  · split <;> omega

/-- Unfolded validity bounds. -/
theorem isValidDate_bounds {y m d : Nat} (h : isValidDate y m d = true) :
    1 ≤ y ∧ y ≤ 9999 ∧ 1 ≤ m ∧ m ≤ 12 ∧ 1 ≤ d ∧ d ≤ 31 := by
  have hd := daysInMonth_le y m
  simp only [isValidDate, Bool.and_eq_true, decide_eq_true_eq] at h
  omega

theorem formatSlash_data (d : Date) :
    (formatSlash d).data =
      natDigits d.month ++ '/' :: (natDigits d.day ++ '/' :: natDigits d.year) := by
  simp [formatSlash]

/-- Every character of the `M/D/YYYY` rendering is a digit or a slash. -/
theorem formatSlash_chars (d : Date) :
    ∀ c ∈ (formatSlash d).data, c.isDigit = true ∨ c = '/' := by
  intro c hc
  rw [formatSlash_data] at hc
  rcases List.mem_append.1 hc with h | h
  · exact Or.inl (natDigits_all_digit _ c h)
  · rcases List.mem_cons.1 h with rfl | h
    · exact Or.inr rfl
    · rcases List.mem_append.1 h with h | h
      · exact Or.inl (natDigits_all_digit _ c h)
      · rcases List.mem_cons.1 h with rfl | h
        · exact Or.inr rfl
        · exact Or.inl (natDigits_all_digit _ c h)

theorem formatSlash_no_ws (d : Date) :
    ∀ c ∈ (formatSlash d).data, c.isWhitespace = false := by
  intro c hc
  rcases formatSlash_chars d c hc with h | rfl
  · exact isDigit_not_ws h
  · decide

theorem pyStrip_formatSlash (d : Date) : pyStrip (formatSlash d) = formatSlash d :=
  pyStrip_eq_self (formatSlash_no_ws d)

theorem formatSlash_ne_empty (d : Date) : formatSlash d ≠ "" := by
  intro h
  have := congrArg String.data h
  rw [formatSlash_data] at this
  exact natDigits_ne_nil d.month (List.append_eq_nil.1 this).1

/-- Round trip: the export's `M/D/YYYY` rendering of a valid date parses
back to the same date. -/
theorem parseSheetDate_formatSlash {d : Date}
    (h : isValidDate d.year d.month d.day = true) :
    parseSheetDate (formatSlash d) = some d := by
  obtain ⟨h1, h2, h3, h4, h5, h6⟩ := isValidDate_bounds h
  unfold parseSheetDate
  rw [pyStrip_formatSlash]
  rw [if_neg (formatSlash_ne_empty d)]
  have hnodash : fromIsoformat (formatSlash d) = none := by
    apply fromIso_none_of_no_dash
    intro hmem
    rcases formatSlash_chars d '-' hmem with hdig | hslash
    · exact absurd hdig (by decide)
    · exact absurd hslash (by decide)
  rw [hnodash, formatSlash_data,
    splitChar_append (slash_not_in_natDigits d.month),
    splitChar_append (slash_not_in_natDigits d.day),
    splitChar_of_not_mem (slash_not_in_natDigits d.year)]
  show (match parseInt (natLit d.month), parseInt (natLit d.day), parseInt (natLit d.year) with
    | some m, some dd, some y => mkDate y m dd
    | _, _, _ => none) = some d
  rw [parseInt_natLit, parseInt_natLit, parseInt_natLit]
  show mkDate d.year d.month d.day = some d
  rw [mkDate, if_pos]
  · simp
  · refine ⟨by positivity, by positivity, by positivity, ?_⟩
    simpa using h


theorem pad2_all_digit (n : Nat) : ∀ c ∈ pad2 n, c.isDigit = true := by
  intro c hc
  rcases List.mem_cons.1 hc with rfl | hc
  · exact digitChar_isDigit _
  · rcases List.mem_cons.1 hc with rfl | hc
    · exact digitChar_isDigit _
    · exact absurd hc (List.not_mem_nil c)

theorem isoFormat_data (d : Date) :
    (isoFormat d).data =
      [digitChar (d.year / 1000), digitChar (d.year / 100), digitChar (d.year / 10),
       digitChar d.year, '-', digitChar (d.month / 10), digitChar d.month, '-',
       digitChar (d.day / 10), digitChar d.day] := by
  simp [isoFormat, pad2]

theorem isoFormat_no_ws (d : Date) :
    ∀ c ∈ (isoFormat d).data, c.isWhitespace = false := by
  intro c hc
  rw [isoFormat_data] at hc
  simp only [List.mem_cons, List.not_mem_nil, or_false] at hc
  rcases hc with rfl | rfl | rfl | rfl | rfl | rfl | rfl | rfl | rfl | rfl <;>
    first
      | decide
      | exact isDigit_not_ws (digitChar_isDigit _)

theorem isoFormat_ne_empty (d : Date) : isoFormat d ≠ "" := by
  intro h
  have := congrArg String.data h
  rw [isoFormat_data] at this
  simp at this


/-- Evaluation of `fromisoformat` at the ISO rendering of a valid date. -/
theorem fromIso_isoFormat {d : Date} (h : isValidDate d.year d.month d.day = true) :
    fromIsoformat (isoFormat d) = some d := by
  obtain ⟨h1, h2, h3, h4, h5, h6⟩ := isValidDate_bounds h
  unfold fromIsoformat
  rw [isoFormat_data]
  split
  · rename_i y1 y2 y3 y4 c1 m1 m2 c2 d1 d2 heq
    simp only [List.cons.injEq, and_true] at heq
    obtain ⟨rfl, rfl, rfl, rfl, rfl, rfl, rfl, rfl, rfl, rfl⟩ := heq
    rw [if_pos]
    · show mkDate
        ((((digitChar (d.year / 1000)).toNat - 48) * 10 + ((digitChar (d.year / 100)).toNat - 48)) * 100
          + ((digitChar (d.year / 10)).toNat - 48) * 10 + ((digitChar d.year).toNat - 48) : Nat)
        ((((digitChar (d.month / 10)).toNat - 48) * 10 + ((digitChar d.month).toNat - 48)) : Nat)
        ((((digitChar (d.day / 10)).toNat - 48) * 10 + ((digitChar d.day).toNat - 48)) : Nat) = some d
      simp only [digitChar_toNat]
      have hy : ((48 + d.year / 1000 % 10 - 48) * 10 + (48 + d.year / 100 % 10 - 48)) * 100
          + (48 + d.year / 10 % 10 - 48) * 10 + (48 + d.year % 10 - 48) = d.year := by omega
      have hm : (48 + d.month / 10 % 10 - 48) * 10 + (48 + d.month % 10 - 48) = d.month := by omega
      have hd : (48 + d.day / 10 % 10 - 48) * 10 + (48 + d.day % 10 - 48) = d.day := by omega
      rw [hy, hm, hd, mkDate, if_pos]
      · simp
      · refine ⟨by positivity, by positivity, by positivity, ?_⟩
        simpa using h
    · refine ⟨rfl, rfl, ?_⟩
      simp [digitChar_isDigit]
  · rename_i hne
    exact absurd rfl (hne _ _ _ _ _ _ _ _ _ _)

/-- Round trip: the ISO rendering of a valid date parses back to the
same date. -/
theorem parseSheetDate_isoFormat {d : Date}
    (h : isValidDate d.year d.month d.day = true) :
    parseSheetDate (isoFormat d) = some d := by
  unfold parseSheetDate
  rw [pyStrip_eq_self (isoFormat_no_ws d), if_neg (isoFormat_ne_empty d),
    fromIso_isoFormat h]

/-! ## Claim theorems -/

/-- Claim C4: for a (year, month) marked dirty in the session, the
reconciliation projection is a no-op — the local state (hence every
SundayReport row, ChurchProgress row and MonthlyReport flag, for this
and every other month) is returned unchanged, whatever the cache holds. -/
theorem c4_dirty_month_reconciliation_noop (sess : Session)
    (cache : List CacheReportRow) (y m : Nat) (st : LocalState)
    (h : isMonthDirty sess y m = true) :
    syncLocalMonthFromCacheForPastor sess cache y m st = st := by
  unfold syncLocalMonthFromCacheForPastor
  rw [h]
  rfl

/-- Witness for C4 at a concrete dirty month and conflicting cache row. -/
theorem c4_dirty_month_reconciliation_noop_witness :
    isMonthDirty wDirtySession 2026 1 = true ∧
    syncLocalMonthFromCacheForPastor wDirtySession [wCacheRowBlank] 2026 1 wEmptyState
      = wEmptyState :=
  ⟨by decide,
   c4_dirty_month_reconciliation_noop wDirtySession [wCacheRowBlank] 2026 1 wEmptyState
     (by decide)⟩

/-- Claim C1 (code bug evidence): a matching cached row with a blank
status still yields `MonthlyReport.submitted = 1` after reconciliation,
because src/app.py:1080 reads `1 if any(...) else 1` — both branches of
the conditional are 1 — while the claim (and the spec) require
`submitted = 0` when no non-blank status was observed.  `approved` is 0
here, as the claim says. -/
theorem c1_submitted_one_despite_all_blank_statuses :
    (∀ r ∈ [wCacheRowBlank], pyStrip r.status = "") ∧
    ((findMR (syncLocalMonthFromCacheForPastor wSession [wCacheRowBlank] 2026 1 wEmptyState)
        2026 1 "juan").map (fun r => (r.submitted, r.approved))) = some (1, 0) := by
  constructor
  · decide
  · decide

/-- Claim C2 (counterexample): with a Report-tab read failure (`none`)
and a previously nonempty Report cache, the sync leaves the Report
cache empty — not at its previous contents as the claim states. -/
theorem c2_failed_tab_cache_emptied_counterexample :
    (syncFromSheetsIfNeeded true 0 none (some ()) (some []) none (some []) (some [])
        wCacheWithReport).cache.report = [] ∧
    wCacheWithReport.report ≠ [] := by
  constructor
  · rfl
  · decide

/-- Claim C2 (amended): when reading one tab fails, the sync of the
other tabs still proceeds (their cache tables are exactly what they
would be had the failed tab succeeded), but the failed tab's cache
table is emptied for that sync attempt (its wholesale `DELETE` still
runs and nothing is reinserted).  Only a failure to open the store
itself leaves every cache table at its previous contents. -/
theorem c2_amended_tab_failure_isolated (now : Int) (last : Option Int)
    (acc rep aopt pr : Option (List (List String))) (cache : CacheState) :
    (syncFromSheetsIfNeeded true now last (some ()) acc none aopt pr cache).cache.report = [] ∧
    (syncFromSheetsIfNeeded true now last (some ()) acc none aopt pr cache).cache.accounts
      = (syncFromSheetsIfNeeded true now last (some ()) acc rep aopt pr cache).cache.accounts ∧
    (syncFromSheetsIfNeeded true now last (some ()) acc none aopt pr cache).cache.aopt
      = (syncFromSheetsIfNeeded true now last (some ()) acc rep aopt pr cache).cache.aopt ∧
    (syncFromSheetsIfNeeded true now last (some ()) acc none aopt pr cache).cache.prayer
      = (syncFromSheetsIfNeeded true now last (some ()) acc rep aopt pr cache).cache.prayer ∧
    (syncFromSheetsIfNeeded true now last none acc rep aopt pr cache).cache = cache ∧
    (syncFromSheetsIfNeeded true now last none acc rep aopt pr cache).lastSync = last := by
  unfold syncFromSheetsIfNeeded
  simp [syncReportGrid]

/-- Claim C5: two `force=False` sync calls within the 120-second
interval perform exactly one external read — the first reads (given its
own gate passes) and updates `last_sync`, the second is a no-op leaving
cache and timestamp untouched — while `force=True` always reads. -/
theorem c5_sync_interval_gating (cache : CacheState) (last : Option Int)
    (now0 now1 : Int) (acc rep aopt pr acc1 rep1 aopt1 pr1 : Option (List (List String)))
    (open1 : Option Unit)
    (hfirst : ∀ t, last = some t → SYNC_INTERVAL_SECONDS ≤ now0 - t)
    (hwithin : now1 - now0 < SYNC_INTERVAL_SECONDS) :
    (let r1 := syncFromSheetsIfNeeded false now0 last (some ()) acc rep aopt pr cache
     let r2 := syncFromSheetsIfNeeded false now1 r1.lastSync open1 acc1 rep1 aopt1 pr1 r1.cache
     r1.didRead = true ∧ r2.didRead = false ∧ r2.cache = r1.cache ∧ r2.lastSync = r1.lastSync) ∧
    ∀ (now' : Int) (l : Option Int) (o : Option Unit)
      (a b c d : Option (List (List String))) (cs : CacheState),
      (syncFromSheetsIfNeeded true now' l o a b c d cs).didRead = true := by
  constructor
  · have hgate1 : (syncFromSheetsIfNeeded false now0 last (some ()) acc rep aopt pr cache)
        = ⟨{ accounts := syncAccountsGrid (acc.getD [])
             report := syncReportGrid (rep.getD [])
             aopt := syncAoptGrid (aopt.getD [])
             prayer := syncPrayerGrid (pr.getD []) }, some now0, true⟩ := by
      unfold syncFromSheetsIfNeeded
      cases last with
      | none => simp
      | some t =>
        have := hfirst t rfl
        simp only [Bool.not_false, Bool.true_and]
        rw [if_neg]
        simp
        omega
    rw [hgate1]
    unfold syncFromSheetsIfNeeded
    simp only [Bool.not_false, Bool.true_and]
    rw [if_pos]
    · simp
    · simpa using hwithin
  · intro now' l o a b c d cs
    unfold syncFromSheetsIfNeeded
    cases o <;> simp

/-- Witness for C5: a first-ever sync at t=1000 followed by a call at
t=1100. -/
theorem c5_sync_interval_gating_witness :
    (let r1 := syncFromSheetsIfNeeded false 1000 none (some ()) none none none none
        wCacheWithReport
     let r2 := syncFromSheetsIfNeeded false 1100 r1.lastSync (some ()) none none none none
        r1.cache
     r1.didRead = true ∧ r2.didRead = false ∧ r2.cache = r1.cache ∧ r2.lastSync = r1.lastSync) ∧
    ∀ (now' : Int) (l : Option Int) (o : Option Unit)
      (a b c d : Option (List (List String))) (cs : CacheState),
      (syncFromSheetsIfNeeded true now' l o a b c d cs).didRead = true :=
  c5_sync_interval_gating wCacheWithReport none 1000 1100 none none none none
    none none none none (some ())
    (fun t ht => by simp at ht) (by decide)

/-- Claim C10: when the export preconditions fail — blank pastor
username, no monthly report for the triple, or no Sunday rows — the
export returns with the external sheet unchanged (no deletion, no
append), and the model is a total function, so no error is raised. -/
theorem c10_export_noop_on_precondition_failure (sess : Session) (st : LocalState)
    (cache : List CacheReportRow) (values : List (List String)) (y m : Nat)
    (label : String)
    (h : pyStrip sess.pastor_username = "" ∨
         findMR st y m (pyStrip sess.pastor_username) = none ∨
         ∀ mr, findMR st y m (pyStrip sess.pastor_username) = some mr →
           sundayRowsFor st mr.id = []) :
    exportMonthToSheet sess st cache values y m label = values := by
  unfold exportMonthToSheet
  rcases h with h | h | h
  · simp [h]
  · by_cases hu : pyStrip sess.pastor_username = ""
    · simp [hu]
    · simp [hu, h]
  · by_cases hu : pyStrip sess.pastor_username = ""
    · simp [hu]
    · cases hmr : findMR st y m (pyStrip sess.pastor_username) with
      | none => simp [hu, hmr]
      | some mr => simp [hu, hmr, h mr hmr]

/-- Witness for C10: a session with a blank username, and separately a
user with a monthly report that has no Sunday rows. -/
theorem c10_export_noop_on_precondition_failure_witness :
    exportMonthToSheet ⟨"", "", "", "", []⟩ wEmptyState [] [canonicalReportHeaders]
      2026 1 "Pending AO approval" = [canonicalReportHeaders] ∧
    exportMonthToSheet wSession
      ⟨[⟨1, 2026, 1, "juan", 0, 0⟩], [], [], 2, 1, 1⟩ [] [canonicalReportHeaders]
      2026 1 "Pending AO approval" = [canonicalReportHeaders] :=
  ⟨c10_export_noop_on_precondition_failure ⟨"", "", "", "", []⟩ wEmptyState []
      [canonicalReportHeaders] 2026 1 "Pending AO approval" (Or.inl (by decide)),
   c10_export_noop_on_precondition_failure wSession
      ⟨[⟨1, 2026, 1, "juan", 0, 0⟩], [], [], 2, 1, 1⟩ []
      [canonicalReportHeaders] 2026 1 "Pending AO approval"
      (Or.inr (Or.inr (by decide)))⟩

/-- An `INSERT OR REPLACE` into `verses` followed by the day's lookup finds
exactly the inserted row. -/
theorem find?_verses_upsert (verses : List VerseRow) (ds : String) (row : VerseRow)
    (hrow : row.date = ds) :
    ((verses.filter (fun r => r.date ≠ ds)) ++ [row]).find? (fun r => r.date = ds)
      = some row := by
  rw [List.find?_append]
  have h1 : (verses.filter (fun r => r.date ≠ ds)).find? (fun r => r.date = ds) = none := by
    rw [List.find?_eq_none]
    intro x hx
    have := List.of_mem_filter hx
    simpa using this
  rw [h1]
  simp [List.find?, hrow]

/-- Claim C9: on a day with no cached verse row, the first call performs
the one external HTTP call, the second call on the same day hits the
cache — no call, same (reference, text) pair, table unchanged; the
reference is `references[ordinal(today) % len(references)]`, and on a
failed lookup (or a blank text field) the text falls back to the bare
reference, cached that way. -/
theorem c9_verse_cached_once (today : Date) (verses : List VerseRow)
    (f1 f2 : Option String)
    (hmiss : verses.find? (fun r => r.date = isoFormat today) = none) :
    let r1 := getVerseOfTheDay today f1 verses
    let r2 := getVerseOfTheDay today f2 r1.2.1
    r1.2.2 = true ∧ r2.2.2 = false ∧ r2.1 = r1.1 ∧ r2.2.1 = r1.2.1 ∧
    r1.1.1 = VERSE_REFERENCES.getD (toOrdinal today % VERSE_REFERENCES.length) "" ∧
    (f1 = none → r1.1.2 = r1.1.1) ∧
    (∀ t, f1 = some t → pyStrip t = "" → r1.1.2 = r1.1.1) := by
  intro r1 r2
  have hr1 : r1 = ((VERSE_REFERENCES.getD (toOrdinal today % VERSE_REFERENCES.length) "",
      match f1 with
      | none => VERSE_REFERENCES.getD (toOrdinal today % VERSE_REFERENCES.length) ""
      | some t => if pyStrip t ≠ "" then pyStrip t
                  else VERSE_REFERENCES.getD (toOrdinal today % VERSE_REFERENCES.length) ""),
      (verses.filter (fun r => r.date ≠ isoFormat today)) ++
        [⟨isoFormat today,
          VERSE_REFERENCES.getD (toOrdinal today % VERSE_REFERENCES.length) "",
          match f1 with
          | none => VERSE_REFERENCES.getD (toOrdinal today % VERSE_REFERENCES.length) ""
          | some t => if pyStrip t ≠ "" then pyStrip t
                      else VERSE_REFERENCES.getD (toOrdinal today % VERSE_REFERENCES.length) ""⟩],
      true) := by
    show getVerseOfTheDay today f1 verses = _
    simp only [getVerseOfTheDay, hmiss]
  have hr2 : r2 = (r1.1, r1.2.1, false) := by
    show getVerseOfTheDay today f2 r1.2.1 = (r1.1, r1.2.1, false)
    rw [hr1]
    simp only [getVerseOfTheDay]
    rw [find?_verses_upsert verses (isoFormat today) _ rfl]
  rw [hr2, hr1]
  refine ⟨rfl, rfl, rfl, rfl, rfl, ?_, ?_⟩
  · rintro rfl
    rfl
  · rintro t rfl ht
    simp [ht]

/-- Witness for C9: 2026-01-25 with an empty verses table and a failed
lookup both times. -/
theorem c9_verse_cached_once_witness :
    let r1 := getVerseOfTheDay ⟨2026, 1, 25⟩ none []
    let r2 := getVerseOfTheDay ⟨2026, 1, 25⟩ none r1.2.1
    r1.2.2 = true ∧ r2.2.2 = false ∧ r2.1 = r1.1 ∧ r2.2.1 = r1.2.1 ∧
    r1.1.1 = VERSE_REFERENCES.getD (toOrdinal ⟨2026, 1, 25⟩ % VERSE_REFERENCES.length) "" ∧
    (none = (none : Option String) → r1.1.2 = r1.1.1) ∧
    (∀ t, (none : Option String) = some t → pyStrip t = "" → r1.1.2 = r1.1.1) :=
  c9_verse_cached_once ⟨2026, 1, 25⟩ [] none none (by decide)

/-- Claim C6: for a valid calendar date, the ISO `YYYY-MM-DD` rendering
and the slash `M/D/YYYY` rendering parse to the same date; a string in
neither form (for example `"not-a-date"`) parses to `None` without
raising (the parser is a total function), and the Report sync loop
skips any row whose date cell fails to parse instead of inserting it. -/
theorem c6_date_parse_roundtrip_and_skip (y m d : Nat)
    (hv : isValidDate y m d = true) :
    parseSheetDate (isoFormat ⟨y, m, d⟩) = some ⟨y, m, d⟩ ∧
    parseSheetDate (formatSlash ⟨y, m, d⟩) = some ⟨y, m, d⟩ ∧
    parseSheetDate "not-a-date" = none ∧
    (∀ (ix : ReportIdx) (r : Nat) (row : List String) (rest : List (List String)),
      parseReportRowWith ix row = none →
      syncReportAux ix r (row :: rest) = syncReportAux ix (r + 1) rest) ∧
    (∀ (ix : ReportIdx) (row : List String),
      pyStrip (cellAt row ix.activity) = "not-a-date" →
      parseReportRowWith ix row = none) := by
  refine ⟨parseSheetDate_isoFormat hv, parseSheetDate_formatSlash hv, by decide, ?_, ?_⟩
  · intro ix r row rest h
    simp only [syncReportAux, h]
  · intro ix row h
    unfold parseReportRowWith
    rw [h, if_neg (by decide)]
    have hbad : parseSheetDate "not-a-date" = none := by decide
    rw [hbad]

/-- Witness for C6 at 2026-01-25 (so "2026-01-25" and "1/25/2026"). -/
theorem c6_date_parse_roundtrip_and_skip_witness :
    parseSheetDate (isoFormat ⟨2026, 1, 25⟩) = some ⟨2026, 1, 25⟩ ∧
    parseSheetDate (formatSlash ⟨2026, 1, 25⟩) = some ⟨2026, 1, 25⟩ ∧
    parseSheetDate "not-a-date" = none ∧
    (∀ (ix : ReportIdx) (r : Nat) (row : List String) (rest : List (List String)),
      parseReportRowWith ix row = none →
      syncReportAux ix r (row :: rest) = syncReportAux ix (r + 1) rest) ∧
    (∀ (ix : ReportIdx) (row : List String),
      pyStrip (cellAt row ix.activity) = "not-a-date" →
      parseReportRowWith ix row = none) :=
  c6_date_parse_roundtrip_and_skip 2026 1 25 (by decide)

/-- Claim C7: when the export runs, the sheet becomes the
delete-then-append result, and every appended row is built from its
SundayReport with amount-to-send equal to the sum of the four financial
fields (church tithes + offering + mission + personal tithes), the
activity date rendered as unpadded `M/D/YYYY`, and exactly the status
label passed to the export (cells 17 and 19 of the appended row carry
the date and label verbatim). -/
theorem c7_export_row_content (sess : Session) (st : LocalState)
    (cache : List CacheReportRow) (values : List (List String)) (y m : Nat)
    (label : String) (mr : MonthlyReportRow)
    (huser : pyStrip sess.pastor_username ≠ "")
    (hmr : findMR st y m (pyStrip sess.pastor_username) = some mr)
    (hne : sundayRowsFor st mr.id ≠ []) :
    (exportMonthToSheet sess st cache values y m label
      = deleteRowsDesc values
          (exportLocators cache y m
            (if pyStrip sess.pastor_church_id ≠ "" then pyStrip sess.pastor_church_id
             else sess.pastor_church_address)
            sess.pastor_name)
        ++ (sundayRowsFor st mr.id).map (fun r =>
            buildSheetRow (exportedRowData (pyStrip sess.pastor_church_id)
              sess.pastor_church_address sess.pastor_name
              (ensureChurchProgress st mr.id).1 label r))) ∧
    ∀ (cid caddr pname : String) (cp : ChurchProgressRow) (r : SundayReportRow),
      (exportedRowData cid caddr pname cp label r).amount_to_send
        = r.tithes_church.getD 0 + r.offering.getD 0 + r.mission.getD 0
          + r.tithes_personal.getD 0 ∧
      (exportedRowData cid caddr pname cp label r).activity_date = formatSlash r.date ∧
      (exportedRowData cid caddr pname cp label r).status = label ∧
      (buildSheetRow (exportedRowData cid caddr pname cp label r)).getD 17 ""
        = formatSlash r.date ∧
      (buildSheetRow (exportedRowData cid caddr pname cp label r)).getD 19 "" = label := by
  constructor
  · unfold exportMonthToSheet
    rw [if_neg huser, hmr]
    have hie : (sundayRowsFor st mr.id).isEmpty = false := by
      cases hsr : sundayRowsFor st mr.id with
      | nil => exact absurd hsr hne
      | cons a l => rfl
    simp only [hie, Bool.false_eq_true, if_false]
  · intro cid caddr pname cp r
    exact ⟨rfl, rfl, rfl, rfl, rfl⟩

/-- Witness for C7: pastor juan exporting January 2026 with one Sunday
row. -/
theorem c7_export_row_content_witness :
    (exportMonthToSheet wSession
        ⟨[⟨1, 2026, 1, "juan", 0, 0⟩],
         [⟨1, 1, ⟨2026, 1, 4⟩, 1, some 10, some 5, some 3, none,
           some 100, some 50, some 30, some 20⟩], [], 2, 2, 1⟩
        [] [canonicalReportHeaders] 2026 1 "Pending AO approval"
      = deleteRowsDesc [canonicalReportHeaders]
          (exportLocators [] 2026 1
            (if pyStrip wSession.pastor_church_id ≠ "" then pyStrip wSession.pastor_church_id
             else wSession.pastor_church_address)
            wSession.pastor_name)
        ++ (sundayRowsFor
            ⟨[⟨1, 2026, 1, "juan", 0, 0⟩],
             [⟨1, 1, ⟨2026, 1, 4⟩, 1, some 10, some 5, some 3, none,
               some 100, some 50, some 30, some 20⟩], [], 2, 2, 1⟩ 1).map (fun r =>
            buildSheetRow (exportedRowData (pyStrip wSession.pastor_church_id)
              wSession.pastor_church_address wSession.pastor_name
              (ensureChurchProgress
                ⟨[⟨1, 2026, 1, "juan", 0, 0⟩],
                 [⟨1, 1, ⟨2026, 1, 4⟩, 1, some 10, some 5, some 3, none,
                   some 100, some 50, some 30, some 20⟩], [], 2, 2, 1⟩ 1).1
              "Pending AO approval" r))) ∧
    ∀ (cid caddr pname : String) (cp : ChurchProgressRow) (r : SundayReportRow),
      (exportedRowData cid caddr pname cp "Pending AO approval" r).amount_to_send
        = r.tithes_church.getD 0 + r.offering.getD 0 + r.mission.getD 0
          + r.tithes_personal.getD 0 ∧
      (exportedRowData cid caddr pname cp "Pending AO approval" r).activity_date
        = formatSlash r.date ∧
      (exportedRowData cid caddr pname cp "Pending AO approval" r).status
        = "Pending AO approval" ∧
      (buildSheetRow (exportedRowData cid caddr pname cp "Pending AO approval" r)).getD 17 ""
        = formatSlash r.date ∧
      (buildSheetRow (exportedRowData cid caddr pname cp "Pending AO approval" r)).getD 19 ""
        = "Pending AO approval" :=
  c7_export_row_content wSession
    ⟨[⟨1, 2026, 1, "juan", 0, 0⟩],
     [⟨1, 1, ⟨2026, 1, 4⟩, 1, some 10, some 5, some 3, none,
       some 100, some 50, some 30, some 20⟩], [], 2, 2, 1⟩
    [] [canonicalReportHeaders] 2026 1 "Pending AO approval" ⟨1, 2026, 1, "juan", 0, 0⟩
    (by decide) (by decide) (by decide)


theorem updAt_getD_ne {α : Type} (i k : Nat) (f : α → α) (l : List α) (dflt : α)
    (h : k ≠ i) : (updAt i f l).getD k dflt = l.getD k dflt := by
  induction l generalizing i k with
  | nil => cases i <;> rfl
  | cons a as ih =>
    cases i with
    | zero =>
      cases k with
      | zero => exact absurd rfl h
      | succ k => rfl
    | succ i =>
      cases k with
      | zero => rfl
      | succ k => exact ih i k (fun hc => h (congrArg Nat.succ hc))

theorem updAt_getD_eq {α : Type} (i : Nat) (f : α → α) (l : List α) (dflt : α)
    (h : i < l.length) : (updAt i f l).getD i dflt = f (l.getD i dflt) := by
  induction l generalizing i with
  | nil => simp at h
  | cons a as ih =>
    cases i with
    | zero => rfl
    | succ i => exact ih i (by simpa using h)

theorem updAt_ge {α : Type} (i : Nat) (f : α → α) (l : List α)
    (h : l.length ≤ i) : updAt i f l = l := by
  induction l generalizing i with
  | nil => cases i <;> rfl
  | cons a as ih =>
    cases i with
    | zero => simp at h
    | succ i =>
      show a :: updAt i f as = a :: as
      rw [ih i (by simpa using h)]

theorem updAt_length {α : Type} (i : Nat) (f : α → α) (l : List α) :
    (updAt i f l).length = l.length := by
  induction l generalizing i with
  | nil => cases i <;> rfl
  | cons a as ih =>
    cases i with
    | zero => rfl
    | succ i => exact congrArg Nat.succ (ih i)

theorem applyStatusCell_ne (label : String) (idx : Nat) (g : List (List String))
    (r i j : Nat) (h : i ≠ r - 1 ∨ j ≠ idx) :
    getCell (applyStatusCell label idx g r) i j = getCell g i j := by
  unfold applyStatusCell getCell
  rcases h with h | h
  · rw [updAt_getD_ne _ _ _ _ _ h]
  · by_cases hi : i = r - 1
    · by_cases hb : r - 1 < g.length
      · rw [hi, updAt_getD_eq _ _ _ _ hb, updAt_getD_ne _ _ _ _ _ h]
      · rw [updAt_ge _ _ _ (by omega)]
    · rw [updAt_getD_ne _ _ _ _ _ hi]

theorem applyStatusCell_eq (label : String) (idx : Nat) (g : List (List String))
    (r : Nat) (h1 : r - 1 < g.length) (h2 : idx < (g.getD (r - 1) []).length) :
    getCell (applyStatusCell label idx g r) (r - 1) idx = label := by
  unfold applyStatusCell getCell
  rw [updAt_getD_eq _ _ _ _ h1, updAt_getD_eq _ _ _ _ h2]

theorem applyStatusCell_cases (label : String) (idx : Nat) (g : List (List String))
    (r i j : Nat) :
    getCell (applyStatusCell label idx g r) i j = getCell g i j ∨
    getCell (applyStatusCell label idx g r) i j = label := by
  by_cases hi : i = r - 1
  · by_cases hj : j = idx
    · by_cases hb1 : r - 1 < g.length
      · by_cases hb2 : idx < (g.getD (r - 1) []).length
        · right
          rw [hi, hj]
          exact applyStatusCell_eq label idx g r hb1 hb2
        · left
          unfold applyStatusCell getCell
          rw [hi, hj, updAt_getD_eq _ _ _ _ hb1, updAt_ge _ _ _ (by omega)]
      · left
        unfold applyStatusCell getCell
        rw [updAt_ge _ _ _ (by omega)]
    · exact Or.inl (applyStatusCell_ne label idx g r i j (Or.inr hj))
  · exact Or.inl (applyStatusCell_ne label idx g r i j (Or.inl hi))

theorem applyStatusCell_length (label : String) (idx : Nat) (g : List (List String))
    (r : Nat) : (applyStatusCell label idx g r).length = g.length :=
  updAt_length _ _ _

theorem applyStatusCell_row_length (label : String) (idx : Nat)
    (g : List (List String)) (r i : Nat) :
    ((applyStatusCell label idx g r).getD i []).length = (g.getD i []).length := by
  unfold applyStatusCell
  by_cases hi : i = r - 1
  · by_cases hb : r - 1 < g.length
    · rw [hi, updAt_getD_eq _ _ _ _ hb, updAt_length]
    · rw [updAt_ge _ _ _ (by omega)]
  · rw [updAt_getD_ne _ _ _ _ _ hi]

theorem batchFold_getCell_ne (label : String) (idx : Nat) (rows : List Nat)
    (g : List (List String)) (i j : Nat)
    (h : (i + 1) ∈ rows → j ≠ idx) (hr : ∀ r ∈ rows, r ≠ 0) :
    getCell (rows.foldl (applyStatusCell label idx) g) i j = getCell g i j := by
  induction rows generalizing g with
  | nil => rfl
  | cons r rest ih =>
    rw [List.foldl_cons,
      ih (applyStatusCell label idx g r)
        (fun hm => h (List.mem_cons_of_mem _ hm))
        (fun x hx => hr x (List.mem_cons_of_mem _ hx))]
    apply applyStatusCell_ne
    by_cases hi : i = r - 1
    · right
      have hr0 : r ≠ 0 := hr r (List.mem_cons_self r rest)
      have : r = i + 1 := by omega
      exact h (this ▸ List.mem_cons_self r rest)
    · exact Or.inl hi

theorem batchFold_keeps_label (label : String) (idx : Nat) (rows : List Nat)
    (g : List (List String)) (i j : Nat) (h : getCell g i j = label) :
    getCell (rows.foldl (applyStatusCell label idx) g) i j = label := by
  induction rows generalizing g with
  | nil => exact h
  | cons r rest ih =>
    rw [List.foldl_cons]
    apply ih
    rcases applyStatusCell_cases label idx g r i j with hc | hc
    · rw [hc]
      exact h
    · exact hc

theorem batchFold_sets (label : String) (idx : Nat) (rows : List Nat)
    (g : List (List String)) :
    ∀ l ∈ rows, l - 1 < g.length → idx < (g.getD (l - 1) []).length →
      getCell (rows.foldl (applyStatusCell label idx) g) (l - 1) idx = label := by
  induction rows generalizing g with
  | nil =>
    intro l hl
    exact absurd hl (List.not_mem_nil l)
  | cons r rest ih =>
    intro l hl hb1 hb2
    rw [List.foldl_cons]
    rcases List.mem_cons.1 hl with rfl | hl
    · exact batchFold_keeps_label label idx rest _ _ _
        (applyStatusCell_eq label idx g l hb1 hb2)
    · apply ih (applyStatusCell label idx g r) l hl
      · rw [applyStatusCell_length]
        exact hb1
      · rw [applyStatusCell_row_length]
        exact hb2


/-- Claim C8: AO approval of a (year, month, church) changes only the
status-column cell of each located matching external Report row to the
label, leaving every other cell (other columns of those rows, and all
rows not located by the matching cache entries) untouched; on the cache
side, only the status field of matching rows is rewritten, all other
fields and rows being returned unchanged. -/
theorem c8_ao_approval_updates_only_status_cells (y m : Nat) (key label : String)
    (cache : List CacheReportRow) (headers : List String) (rest : List (List String))
    (idx : Nat) (hidx : findCol headers "status" = some idx) :
    (let values := headers :: rest
     let locs := ((cache.filter (matchesChurchMonth y m key)).map
        CacheReportRow.sheet_row).filter (fun n => n ≠ 0)
     let g2 := sheetBatchUpdateStatusForChurchMonth y m key label cache values
     (∀ i j : Nat, ((i + 1) ∈ locs → j ≠ idx) → getCell g2 i j = getCell values i j) ∧
     (∀ l ∈ locs, l - 1 < values.length → idx < (values.getD (l - 1) []).length →
        getCell g2 (l - 1) idx = label)) ∧
    ∀ i : Nat, (cacheUpdateStatusForChurchMonth y m key label cache).get? i
      = (cache.get? i).map (fun r =>
          if matchesChurchMonth y m key r then { r with status := label } else r) := by
  constructor
  · intro values locs g2
    have hr0 : ∀ r ∈ locs, r ≠ 0 := by
      intro r hrm
      have := List.of_mem_filter hrm
      simpa using this
    by_cases hempty : locs.isEmpty
    · have hg2 : g2 = values := by
        show sheetBatchUpdateStatusForChurchMonth y m key label cache values = values
        unfold sheetBatchUpdateStatusForChurchMonth
        rw [if_pos hempty]
      constructor
      · intro i j _
        rw [hg2]
      · intro l hl
        rw [List.isEmpty_iff.1 hempty] at hl
        exact absurd hl (List.not_mem_nil l)
    · have hg2 : g2 = locs.foldl (applyStatusCell label idx) values := by
        show sheetBatchUpdateStatusForChurchMonth y m key label cache values = _
        unfold sheetBatchUpdateStatusForChurchMonth
        rw [if_neg hempty]
        simp only [hidx]
      constructor
      · intro i j h
        rw [hg2]
        exact batchFold_getCell_ne label idx locs values i j h hr0
      · intro l hl hb1 hb2
        rw [hg2]
        exact batchFold_sets label idx locs values l hl hb1 hb2
  · intro i
    simp [cacheUpdateStatusForChurchMonth]


/-- Witness for C8: one matching cached row locating physical row 2 of a
two-row grid, status column 19, label "Approved". -/
theorem c8_ao_approval_updates_only_status_cells_witness :
    (let values := canonicalReportHeaders ::
      [buildSheetRow (exportedRowData "C1" "123 Main St" "Juan Cruz"
        ⟨1, 1, some 3, some 2, some 1, some 0, some 0, some 0, some 0, 1⟩
        "Pending AO approval"
        ⟨1, 1, ⟨2026, 1, 4⟩, 1, some 10, some 5, some 3, none,
          some 100, some 50, some 30, some 20⟩)]
     let locs := (([wCacheRowBlank].filter (matchesChurchMonth 2026 1 "C1")).map
        CacheReportRow.sheet_row).filter (fun n => n ≠ 0)
     let g2 := sheetBatchUpdateStatusForChurchMonth 2026 1 "C1" "Approved"
        [wCacheRowBlank] values
     (∀ i j : Nat, ((i + 1) ∈ locs → j ≠ 19) → getCell g2 i j = getCell values i j) ∧
     (∀ l ∈ locs, l - 1 < values.length → 19 < (values.getD (l - 1) []).length →
        getCell g2 (l - 1) 19 = "Approved")) ∧
    ∀ i : Nat, (cacheUpdateStatusForChurchMonth 2026 1 "C1" "Approved" [wCacheRowBlank]).get? i
      = ([wCacheRowBlank].get? i).map (fun r =>
          if matchesChurchMonth 2026 1 "C1" r then { r with status := "Approved" } else r) :=
  c8_ao_approval_updates_only_status_cells 2026 1 "C1" "Approved" [wCacheRowBlank]
    canonicalReportHeaders
    [buildSheetRow (exportedRowData "C1" "123 Main St" "Juan Cruz"
      ⟨1, 1, some 3, some 2, some 1, some 0, some 0, some 0, some 0, 1⟩
      "Pending AO approval"
      ⟨1, 1, ⟨2026, 1, 4⟩, 1, some 10, some 5, some 3, none,
        some 100, some 50, some 30, some 20⟩)]
    19 (by decide)


theorem mem_insertDesc {a x : Nat} {l : List Nat} :
    x ∈ insertDesc a l ↔ x = a ∨ x ∈ l := by
  induction l with
  | nil => simp [insertDesc]
  | cons b bs ih =>
    unfold insertDesc
    by_cases h : b ≤ a
    · simp [h]
    · simp only [if_neg h, List.mem_cons, ih]
      tauto

theorem mem_sortDesc {x : Nat} {l : List Nat} : x ∈ sortDesc l ↔ x ∈ l := by
  induction l with
  | nil => simp [sortDesc]
  | cons a as ih =>
    simp only [sortDesc, mem_insertDesc, ih, List.mem_cons]

theorem sorted_insertDesc {a : Nat} {l : List Nat}
    (h : l.Pairwise (fun x y => y ≤ x)) :
    (insertDesc a l).Pairwise (fun x y => y ≤ x) := by
  induction l with
  | nil => simp [insertDesc]
  | cons b bs ih =>
    unfold insertDesc
    by_cases hba : b ≤ a
    · rw [if_pos hba]
      refine List.Pairwise.cons ?_ h
      intro x hx
      rcases List.mem_cons.1 hx with rfl | hx
      · exact hba
      · exact le_trans (List.rel_of_pairwise_cons h hx) hba
    · rw [if_neg hba]
      refine List.Pairwise.cons ?_ (ih (List.Pairwise.sublist (List.sublist_cons_self b bs) h))
      intro x hx
      rcases mem_insertDesc.1 hx with rfl | hx
      · omega
      · exact List.rel_of_pairwise_cons h hx

theorem sorted_sortDesc (l : List Nat) :
    (sortDesc l).Pairwise (fun x y => y ≤ x) := by
  induction l with
  | nil => exact List.Pairwise.nil
  | cons a as ih => exact sorted_insertDesc ih

theorem nodup_insertDesc {a : Nat} {l : List Nat} (hn : l.Nodup) (ha : a ∉ l) :
    (insertDesc a l).Nodup := by
  induction l with
  | nil => simp [insertDesc]
  | cons b bs ih =>
    unfold insertDesc
    by_cases hba : b ≤ a
    · rw [if_pos hba]
      exact List.Nodup.cons (by simpa using ha) hn
    · rw [if_neg hba]
      rw [List.nodup_cons] at hn
      refine List.Nodup.cons ?_ (ih hn.2 (fun hc => ha (List.mem_cons_of_mem b hc)))
      intro hc
      rcases mem_insertDesc.1 hc with rfl | hc
      · exact ha (List.mem_cons_self b bs)
      · exact hn.1 hc

theorem nodup_sortDesc {l : List Nat} (hn : l.Nodup) : (sortDesc l).Nodup := by
  induction l with
  | nil => exact List.Pairwise.nil
  | cons a as ih =>
    rw [List.nodup_cons] at hn
    exact nodup_insertDesc (ih hn.2) (fun hc => hn.1 (mem_sortDesc.1 hc))

/-- A descending-sorted duplicate-free list is strictly descending. -/
theorem pairwise_gt_sortDesc {l : List Nat} (hn : l.Nodup) :
    (sortDesc l).Pairwise (fun x y => y < x) := by
  have hs := sorted_sortDesc l
  have hd := nodup_sortDesc hn
  have := List.Pairwise.and hs hd
  exact this.imp (fun h => lt_of_le_of_ne h.1 (fun hc => h.2 hc.symm))

theorem mem_generateSundays {y m : Nat} {d : Date}
    (h : d ∈ generateSundaysForMonth y m)
    (hy : 1 ≤ y) (hy2 : y ≤ 9999) (hm : 1 ≤ m) (hm2 : m ≤ 12) :
    d.year = y ∧ d.month = m ∧ isValidDate d.year d.month d.day = true := by
  unfold generateSundaysForMonth at h
  have hmem := List.mem_of_mem_filter h
  rw [List.mem_map] at hmem
  obtain ⟨i, hi, rfl⟩ := hmem
  rw [List.mem_range] at hi
  refine ⟨rfl, rfl, ?_⟩
  simp only [isValidDate, Bool.and_eq_true, decide_eq_true_eq]
  omega


/-- Members of the Report sync output, backward direction: a data row at
index `j` that parses contributes a cache row with locator `r + j + 1`. -/
theorem syncReportAux_mem_of {ix : ReportIdx} {rows : List (List String)}
    {j : Nat} (r : Nat) (hj : j < rows.length) {c0 : CacheReportRow}
    (hp : parseReportRowWith ix (rows.get ⟨j, hj⟩) = some c0) :
    { c0 with sheet_row := r + j + 1 } ∈ syncReportAux ix r rows := by
  induction rows generalizing r j with
  | nil => exact absurd hj (by simp)
  | cons row rest ih =>
    cases j with
    | zero =>
      show _ ∈ syncReportAux ix r (row :: rest)
      unfold syncReportAux
      rw [show (((row :: rest).get ⟨0, hj⟩)) = row from rfl] at hp
      rw [hp]
      exact List.mem_cons_self _ _
    | succ j =>
      have hj2 : j < rest.length := by simpa using hj
      have hget : (row :: rest).get ⟨j + 1, hj⟩ = rest.get ⟨j, hj2⟩ := rfl
      rw [hget] at hp
      have hmem := ih (r + 1) hj2 hp
      have harith : r + 1 + j + 1 = r + (j + 1) + 1 := by omega
      rw [harith] at hmem
      show _ ∈ syncReportAux ix r (row :: rest)
      unfold syncReportAux
      cases hrow : parseReportRowWith ix row with
      | none => exact hmem
      | some c => exact List.mem_cons_of_mem _ hmem

/-- Members of the Report sync output, forward direction: every cache
row comes from a parsing data row, with locator `r + j + 1`. -/
theorem syncReportAux_mem {ix : ReportIdx} {r : Nat} {rows : List (List String)}
    {x : CacheReportRow} (hx : x ∈ syncReportAux ix r rows) :
    ∃ j, ∃ (hj : j < rows.length), ∃ c0,
      parseReportRowWith ix (rows.get ⟨j, hj⟩) = some c0 ∧
      x = { c0 with sheet_row := r + j + 1 } := by
  induction rows generalizing r with
  | nil => exact absurd hx (by simp [syncReportAux])
  | cons row rest ih =>
    rw [syncReportAux] at hx
    cases hrow : parseReportRowWith ix row with
    | none =>
      rw [hrow] at hx
      obtain ⟨j, hj, c0, hp, hxeq⟩ := ih hx
      refine ⟨j + 1, by simpa using hj, c0, hp, ?_⟩
      rw [hxeq]
      have : r + 1 + j + 1 = r + (j + 1) + 1 := by omega
      rw [this]
    | some c =>
      rw [hrow] at hx
      rcases List.mem_cons.1 hx with rfl | hx
      · exact ⟨0, by simp, c, hrow, by rw [show r + 0 + 1 = r + 1 from rfl]⟩
      · obtain ⟨j, hj, c0, hp, hxeq⟩ := ih hx
        refine ⟨j + 1, by simpa using hj, c0, hp, ?_⟩
        rw [hxeq]
        have : r + 1 + j + 1 = r + (j + 1) + 1 := by omega
        rw [this]

/-- Counting matching cache rows of a sync pass counts the data rows
whose parse satisfies the (locator-independent) predicate. -/
theorem syncReportAux_countP (ix : ReportIdx) (q : CacheReportRow → Bool)
    (hq : ∀ (c : CacheReportRow) (k : Nat), q { c with sheet_row := k } = q c)
    (r : Nat) (rows : List (List String)) :
    (syncReportAux ix r rows).countP q
      = rows.countP (fun row =>
          match parseReportRowWith ix row with
          | some c => q c
          | none => false) := by
  induction rows generalizing r with
  | nil => rfl
  | cons row rest ih =>
    rw [syncReportAux]
    cases hrow : parseReportRowWith ix row with
    | none =>
      rw [List.countP_cons, ih (r + 1), hrow]
      simp
    | some c =>
      rw [List.countP_cons, List.countP_cons, ih (r + 1), hrow, hq]


/-- Deleting a strictly descending, in-bounds list of indices that
covers every index whose element satisfies `p` leaves no `p`-element. -/
theorem countP_eraseIdxs_zero {α : Type} (p : α → Bool) (s : List α) (ks : List Nat)
    (hsort : ks.Pairwise (fun a b => b < a))
    (hcov : ∀ (j : Nat) (hj : j < s.length), p (s.get ⟨j, hj⟩) = true → j ∈ ks)
    (hb : ∀ k ∈ ks, k < s.length) :
    (eraseIdxs s ks).countP p = 0 := by
  induction ks generalizing s with
  | nil =>
    show s.countP p = 0
    rw [List.countP_eq_zero]
    intro a ha hpa
    rw [List.mem_iff_getElem] at ha
    obtain ⟨n, hn, rfl⟩ := ha
    exact absurd (hcov n hn (by simpa using hpa)) (List.not_mem_nil n)
  | cons k ks ih =>
    show (eraseIdxs (s.eraseIdx k) ks).countP p = 0
    have hk : k < s.length := hb k (List.mem_cons_self k ks)
    have hlen : (s.eraseIdx k).length = s.length - 1 := by
      rw [List.length_eraseIdx, if_pos hk]
    apply ih (s.eraseIdx k) (List.Pairwise.sublist (List.sublist_cons_self k ks) hsort)
    · intro j hj hpj
      rw [List.get_eq_getElem, List.getElem_eraseIdx] at hpj
      by_cases hjk : j < k
      · rw [dif_pos hjk] at hpj
        have hjs : j < s.length := by omega
        have hin := hcov j hjs (by simpa using hpj)
        rcases List.mem_cons.1 hin with rfl | hin
        · omega
        · exact hin
      · rw [dif_neg hjk] at hpj
        have hjs : j + 1 < s.length := by omega
        have hin := hcov (j + 1) hjs (by simpa using hpj)
        rcases List.mem_cons.1 hin with heq | hin
        · omega
        · have := List.rel_of_pairwise_cons hsort hin
          omega
    · intro x hx
      have hxk := List.rel_of_pairwise_cons hsort hx
      omega

/-- Bottom-to-top deletion of physical rows (all at least 2) from a grid
keeps the header row and deletes data indices `l - 2`. -/
theorem deleteRowsDesc_header (hdr : List String) (dataRows : List (List String))
    (ls : List Nat) (h2 : ∀ l ∈ ls, 2 ≤ l) :
    deleteRowsDesc (hdr :: dataRows) ls
      = hdr :: eraseIdxs dataRows (ls.map (fun l => l - 2)) := by
  induction ls generalizing dataRows with
  | nil => rfl
  | cons l ls ih =>
    have h2l : 2 ≤ l := h2 l (List.mem_cons_self l ls)
    have hstep : deleteRowsDesc (hdr :: dataRows) (l :: ls)
        = deleteRowsDesc (hdr :: dataRows.eraseIdx (l - 2)) ls := by
      show List.foldl _ (if 1 < l then (hdr :: dataRows).eraseIdx (l - 1) else hdr :: dataRows) ls
        = _
      rw [if_pos (by omega)]
      have hl1 : l - 1 = (l - 2) + 1 := by omega
      rw [hl1]
      rfl
    rw [hstep, ih (dataRows.eraseIdx (l - 2)) (fun x hx => h2 x (List.mem_cons_of_mem l hx))]
    rfl



theorem matchesExportQuery_sheet_row (y m : Nat) (key pname : String)
    (c : CacheReportRow) (k : Nat) :
    matchesExportQuery y m key pname { c with sheet_row := k }
      = matchesExportQuery y m key pname c := rfl

/-- The canonical-header parse of an appended export row. -/
theorem parseReportRowWith_canonical (rd : ReportData) (d : Date)
    (hact : rd.activity_date = formatSlash d)
    (hd : isValidDate d.year d.month d.day = true) :
    ∃ c, parseReportRowWith (resolveReportIdx canonicalReportHeaders)
        (buildSheetRow rd) = some c ∧
      c.year = d.year ∧ c.month = d.month ∧ c.church = pyStrip rd.church ∧
      c.address = pyStrip rd.address ∧ c.pastor = pyStrip rd.pastor := by
  have hix : resolveReportIdx canonicalReportHeaders =
      ⟨some 17, some 19, some 0, some 1, some 2, some 3, some 4, some 5, some 6,
       some 7, some 8, some 9, some 10, some 11, some 12, some 13, some 14,
       some 15, some 16, some 18⟩ := by decide
  rw [hix]
  simp only [parseReportRowWith]
  have hcell : cellAt (buildSheetRow rd)
      (ReportIdx.activity ⟨some 17, some 19, some 0, some 1, some 2, some 3, some 4,
        some 5, some 6, some 7, some 8, some 9, some 10, some 11, some 12, some 13,
        some 14, some 15, some 16, some 18⟩) = rd.activity_date := rfl
  rw [hcell, hact, pyStrip_formatSlash, if_neg (formatSlash_ne_empty d),
    parseSheetDate_formatSlash hd]
  exact ⟨_, rfl, rfl, rfl, rfl, rfl, rfl⟩


/-- The export on a passing precondition path: delete the located rows,
then append one built row per local Sunday. -/
theorem exportMonthToSheet_eq (sess : Session) (st : LocalState)
    (cache : List CacheReportRow) (values : List (List String)) (y m : Nat)
    (label : String) (mr : MonthlyReportRow)
    (huser : pyStrip sess.pastor_username ≠ "")
    (hmr : findMR st y m (pyStrip sess.pastor_username) = some mr)
    (hne : sundayRowsFor st mr.id ≠ []) :
    exportMonthToSheet sess st cache values y m label
      = deleteRowsDesc values
          (exportLocators cache y m
            (if pyStrip sess.pastor_church_id ≠ "" then pyStrip sess.pastor_church_id
             else sess.pastor_church_address)
            sess.pastor_name)
        ++ (sundayRowsFor st mr.id).map (fun r =>
            buildSheetRow (exportedRowData (pyStrip sess.pastor_church_id)
              sess.pastor_church_address sess.pastor_name
              (ensureChurchProgress st mr.id).1 label r)) := by
  unfold exportMonthToSheet
  rw [if_neg huser, hmr]
  have hie : (sundayRowsFor st mr.id).isEmpty = false := by
    cases hsr : sundayRowsFor st mr.id with
    | nil => exact absurd hsr hne
    | cons a l => rfl
  simp only [hie, Bool.false_eq_true, if_false]

/-- Membership in the export-delete locator list. -/
theorem mem_exportLocators {l : Nat} {cache : List CacheReportRow} {y m : Nat}
    {key pname : String} :
    l ∈ exportLocators cache y m key pname ↔
      l ∈ (((cache.filter (matchesExportQuery y m key pname)).map
        CacheReportRow.sheet_row).filter (fun n => n ≠ 0)) := by
  unfold exportLocators
  rw [mem_sortDesc, List.mem_dedup]

/-- The locators of a freshly synced cache: exactly `j + 2` for the
matching data rows `j`, in particular all at least 2 and in bounds. -/
theorem exportLocators_fresh_mem {l : Nat} {ix : ReportIdx}
    {dataRows : List (List String)} {y m : Nat} {key pname : String}
    (hl : l ∈ exportLocators (syncReportAux ix 1 dataRows) y m key pname) :
    2 ≤ l ∧ l - 2 < dataRows.length := by
  rw [mem_exportLocators] at hl
  have hmap := List.mem_of_mem_filter hl
  rw [List.mem_map] at hmap
  obtain ⟨c, hc, rfl⟩ := hmap
  have hcc := List.mem_of_mem_filter hc
  obtain ⟨j, hj, c0, hp, rfl⟩ := syncReportAux_mem hcc
  show 2 ≤ 1 + j + 1 ∧ 1 + j + 1 - 2 < dataRows.length
  omega

/-- Coverage: every matching data row's locator is in the locator list. -/
theorem exportLocators_fresh_cov {ix : ReportIdx} {dataRows : List (List String)}
    {y m : Nat} {key pname : String} (j : Nat) (hj : j < dataRows.length)
    {c0 : CacheReportRow}
    (hp : parseReportRowWith ix (dataRows.get ⟨j, hj⟩) = some c0)
    (hq : matchesExportQuery y m key pname c0 = true) :
    (j + 2) ∈ exportLocators (syncReportAux ix 1 dataRows) y m key pname := by
  rw [mem_exportLocators]
  have hmem := syncReportAux_mem_of 1 hj hp
  have hqc : matchesExportQuery y m key pname { c0 with sheet_row := 1 + j + 1 } = true := by
    rw [matchesExportQuery_sheet_row]
    exact hq
  have hfil : { c0 with sheet_row := 1 + j + 1 }
      ∈ (syncReportAux ix 1 dataRows).filter (matchesExportQuery y m key pname) :=
    List.mem_filter.2 ⟨hmem, hqc⟩
  have hmap : (j + 2) ∈ ((syncReportAux ix 1 dataRows).filter
      (matchesExportQuery y m key pname)).map CacheReportRow.sheet_row := by
    rw [List.mem_map]
    exact ⟨_, hfil, by show 1 + j + 1 = j + 2; omega⟩
  exact List.mem_filter.2 ⟨hmap, by simp⟩

/-- The locator list of any cache is strictly descending. -/
theorem exportLocators_sorted (cache : List CacheReportRow) (y m : Nat)
    (key pname : String) :
    (exportLocators cache y m key pname).Pairwise (fun a b => b < a) := by
  unfold exportLocators
  exact pairwise_gt_sortDesc (List.nodup_dedup _)

theorem syncReportGrid_cons (headers : List String) (dataRows : List (List String)) :
    syncReportGrid (headers :: dataRows)
      = syncReportAux (resolveReportIdx headers) 1 dataRows := by
  cases dataRows with
  | nil => rfl
  | cons a l => rfl


/-- One export against a fresh cache of the current sheet: the output
keeps the canonical header, and the number of matching external rows
afterwards is exactly the number of local Sunday rows = the number of
Sundays of the month. -/
theorem export_fresh_count (sess : Session) (st : LocalState)
    (dataRows : List (List String)) (y m : Nat) (label : String)
    (mr : MonthlyReportRow)
    (huser : pyStrip sess.pastor_username ≠ "")
    (hmr : findMR st y m (pyStrip sess.pastor_username) = some mr)
    (hne : sundayRowsFor st mr.id ≠ [])
    (hid : pyStrip sess.pastor_church_id = sess.pastor_church_id)
    (haddr : pyStrip sess.pastor_church_address = sess.pastor_church_address)
    (hname : pyStrip sess.pastor_name = sess.pastor_name)
    (hdates : (sundayRowsFor st mr.id).map SundayReportRow.date
      = generateSundaysForMonth y m)
    (hy : 1 ≤ y) (hy2 : y ≤ 9999) (hm1 : 1 ≤ m) (hm2 : m ≤ 12) :
    ∃ dataRows2,
      exportMonthToSheet sess st (syncReportGrid (canonicalReportHeaders :: dataRows))
          (canonicalReportHeaders :: dataRows) y m label
        = canonicalReportHeaders :: dataRows2 ∧
      reportMatchCount
        (exportMonthToSheet sess st (syncReportGrid (canonicalReportHeaders :: dataRows))
          (canonicalReportHeaders :: dataRows) y m label) y m
        (if sess.pastor_church_id ≠ "" then sess.pastor_church_id
         else sess.pastor_church_address)
        sess.pastor_name
      = (generateSundaysForMonth y m).length := by
  set ix := resolveReportIdx canonicalReportHeaders with hixdef
  set ckey := (if sess.pastor_church_id ≠ "" then sess.pastor_church_id
    else sess.pastor_church_address) with hckey
  set q := matchesExportQuery y m ckey sess.pastor_name with hqdef
  set cp := (ensureChurchProgress st mr.id).1 with hcp
  set rd := fun r => exportedRowData sess.pastor_church_id sess.pastor_church_address
    sess.pastor_name cp label r with hrd
  set appended := (sundayRowsFor st mr.id).map (fun r => buildSheetRow (rd r)) with happ
  set cache := syncReportAux ix 1 dataRows with hcache
  set locs := exportLocators cache y m ckey sess.pastor_name with hlocs
  -- the export output
  have hexp : exportMonthToSheet sess st (syncReportGrid (canonicalReportHeaders :: dataRows))
      (canonicalReportHeaders :: dataRows) y m label
      = deleteRowsDesc (canonicalReportHeaders :: dataRows) locs ++ appended := by
    rw [exportMonthToSheet_eq sess st _ _ y m label mr huser hmr hne,
      syncReportGrid_cons, hid]
  have h2 : ∀ l ∈ locs, 2 ≤ l := fun l hl => (exportLocators_fresh_mem hl).1
  have hbnd : ∀ l ∈ locs, l - 2 < dataRows.length :=
    fun l hl => (exportLocators_fresh_mem hl).2
  have hdel : deleteRowsDesc (canonicalReportHeaders :: dataRows) locs
      = canonicalReportHeaders :: eraseIdxs dataRows (locs.map (fun l => l - 2)) :=
    deleteRowsDesc_header _ _ _ h2
  have hout : exportMonthToSheet sess st (syncReportGrid (canonicalReportHeaders :: dataRows))
      (canonicalReportHeaders :: dataRows) y m label
      = canonicalReportHeaders :: (eraseIdxs dataRows (locs.map (fun l => l - 2)) ++ appended) := by
    rw [hexp, hdel]
    rfl
  refine ⟨_, hout, ?_⟩
  rw [hout]
  -- count the matching rows of a fresh sync of the output
  unfold reportMatchCount
  rw [← List.countP_eq_length_filter, syncReportGrid_cons, ← hixdef,
    syncReportAux_countP ix q (matchesExportQuery_sheet_row y m ckey sess.pastor_name),
    List.countP_append]
  -- the deleted part contributes nothing
  have hzero : (eraseIdxs dataRows (locs.map (fun l => l - 2))).countP
      (fun row => match parseReportRowWith ix row with
        | some c => q c
        | none => false) = 0 := by
    apply countP_eraseIdxs_zero
    · rw [List.pairwise_map]
      refine List.Pairwise.imp_of_mem ?_ (exportLocators_sorted cache y m ckey sess.pastor_name)
      intro a b ha hb hlt
      have h2a := h2 a ha
      have h2b := h2 b hb
      omega
    · intro j hj hpj
      cases hp : parseReportRowWith ix (dataRows.get ⟨j, hj⟩) with
      | none => rw [hp] at hpj; exact absurd hpj (by simp)
      | some c0 =>
        rw [hp] at hpj
        have hcovj := exportLocators_fresh_cov j hj hp hpj
        rw [List.mem_map]
        exact ⟨j + 2, hcovj, by omega⟩
    · intro k hk
      rw [List.mem_map] at hk
      obtain ⟨l, hl, rfl⟩ := hk
      exact hbnd l hl
  rw [hzero]
  -- every appended row matches
  have hall : (appended.countP (fun row => match parseReportRowWith ix row with
      | some c => q c
      | none => false)) = appended.length := by
    rw [List.countP_eq_length]
    intro row hrow
    rw [happ, List.mem_map] at hrow
    obtain ⟨r, hr, rfl⟩ := hrow
    have hdmem : r.date ∈ generateSundaysForMonth y m := by
      rw [← hdates]
      exact List.mem_map_of_mem SundayReportRow.date hr
    obtain ⟨hyr, hmo, hvd⟩ := mem_generateSundays hdmem hy hy2 hm1 hm2
    obtain ⟨c, hc, hcy, hcm, hcch, hcad, hcpa⟩ :=
      parseReportRowWith_canonical (rd r) r.date rfl hvd
    rw [← hixdef] at hc
    rw [hc]
    show q c = true
    rw [hqdef]
    unfold matchesExportQuery
    rw [decide_eq_true_eq]
    have hchurch : c.church = ckey := by
      rw [hcch]
      have hrch : (rd r).church = ckey := by
        rw [hrd, hckey]
        rfl
      rw [hrch, hckey]
      by_cases hcid : sess.pastor_church_id ≠ ""
      · rw [if_pos hcid]
        exact hid
      · rw [if_neg hcid]
        exact haddr
    have hpast : c.pastor = sess.pastor_name := by
      rw [hcpa]
      have hrpa : (rd r).pastor = sess.pastor_name := by
        rw [hrd]
        rfl
      rw [hrpa]
      exact hname
    exact ⟨by rw [hcy, hyr], by rw [hcm, hmo], Or.inl (by rw [hchurch]),
      by rw [hpast]⟩
  rw [hall, happ, List.length_map, ← List.length_map _ SundayReportRow.date, hdates]
  omega


/-- Claim C3: exporting a month against a fresh cache of the sheet
leaves exactly one external Report row per local SundayReport for that
(year, month, church key, pastor) — the delete-then-reinsert replaces
whatever was there — so exporting twice with identical local data (the
second time with the cache refreshed from the first export's output, as
the submit route's forced sync ensures) leaves the matching-row count at
the number of Sundays in the month, never beyond it. -/
theorem c3_export_resubmission_idempotent (sess : Session) (st : LocalState)
    (dataRows : List (List String)) (y m : Nat) (label : String)
    (mr : MonthlyReportRow)
    (huser : pyStrip sess.pastor_username ≠ "")
    (hmr : findMR st y m (pyStrip sess.pastor_username) = some mr)
    (hne : sundayRowsFor st mr.id ≠ [])
    (hid : pyStrip sess.pastor_church_id = sess.pastor_church_id)
    (haddr : pyStrip sess.pastor_church_address = sess.pastor_church_address)
    (hname : pyStrip sess.pastor_name = sess.pastor_name)
    (hdates : (sundayRowsFor st mr.id).map SundayReportRow.date
      = generateSundaysForMonth y m)
    (hy : 1 ≤ y) (hy2 : y ≤ 9999) (hm1 : 1 ≤ m) (hm2 : m ≤ 12) :
    let values := canonicalReportHeaders :: dataRows
    let out1 := exportMonthToSheet sess st (syncReportGrid values) values y m label
    let out2 := exportMonthToSheet sess st (syncReportGrid out1) out1 y m label
    let ckey := if sess.pastor_church_id ≠ "" then sess.pastor_church_id
      else sess.pastor_church_address
    reportMatchCount out1 y m ckey sess.pastor_name
      = (generateSundaysForMonth y m).length ∧
    reportMatchCount out2 y m ckey sess.pastor_name
      = (generateSundaysForMonth y m).length ∧
    (sundayRowsFor st mr.id).length = (generateSundaysForMonth y m).length := by
  intro values out1 out2 ckey
  obtain ⟨d2, hshape, hcount⟩ := export_fresh_count sess st dataRows y m label mr
    huser hmr hne hid haddr hname hdates hy hy2 hm1 hm2
  obtain ⟨d3, hshape2, hcount2⟩ := export_fresh_count sess st d2 y m label mr
    huser hmr hne hid haddr hname hdates hy hy2 hm1 hm2
  have hout2 : out2 = exportMonthToSheet sess st
      (syncReportGrid (canonicalReportHeaders :: d2)) (canonicalReportHeaders :: d2)
      y m label := by
    show exportMonthToSheet sess st (syncReportGrid out1) out1 y m label = _
    rw [show out1 = canonicalReportHeaders :: d2 from hshape]
  refine ⟨hcount, ?_, ?_⟩
  · rw [hout2]
    exact hcount2
  · rw [← hdates, List.length_map]

/-- Witness for C3: pastor juan, January 2026 (4 Sundays), starting from
a sheet holding only the canonical header row. -/
theorem c3_export_resubmission_idempotent_witness :
    let values := canonicalReportHeaders :: ([] : List (List String))
    let out1 := exportMonthToSheet wSession wLocalJan (syncReportGrid values) values
      2026 1 "Pending AO approval"
    let out2 := exportMonthToSheet wSession wLocalJan (syncReportGrid out1) out1
      2026 1 "Pending AO approval"
    let ckey := if wSession.pastor_church_id ≠ "" then wSession.pastor_church_id
      else wSession.pastor_church_address
    reportMatchCount out1 2026 1 ckey wSession.pastor_name
      = (generateSundaysForMonth 2026 1).length ∧
    reportMatchCount out2 2026 1 ckey wSession.pastor_name
      = (generateSundaysForMonth 2026 1).length ∧
    (sundayRowsFor wLocalJan 1).length = (generateSundaysForMonth 2026 1).length :=
  c3_export_resubmission_idempotent wSession wLocalJan [] 2026 1
    "Pending AO approval" ⟨1, 2026, 1, "juan", 0, 0⟩
    (by decide) (by decide) (by decide) (by decide) (by decide) (by decide)
    (by decide) (by decide) (by decide) (by decide) (by decide)

end District4
